import Mathlib

/-!
Verification development for the OAuth 2.1 Authorization-Code-with-PKCE core
of the repository: PKCE helpers, scope registry, token codec, client registry,
authorization-code store, authorization-server handlers (validate / redeem /
register), client-metadata-URL resolution, and the resource-server guard.
Each definition is a shallow embedding of the corresponding source function.
-/

/-! ## Character and string helpers (JS semantics) -/

/-- Characters matched by the JavaScript regex class backslash-s and by
`String.prototype.trim`. -/
def isJsWs (c : Char) : Bool :=
  c = ' ' || c = '\t' || c = '\n' || c = '\r' ||
  c.toNat = 11 || c.toNat = 12 ||
  c.toNat = 160 || c.toNat = 5760 ||
  (8192 ≤ c.toNat && c.toNat ≤ 8202) ||
  c.toNat = 8232 || c.toNat = 8233 || c.toNat = 8239 || c.toNat = 8287 ||
  c.toNat = 12288 || c.toNat = 65279

/-- ASCII lower-casing of a single character. -/
def toLowerAscii (c : Char) : Char :=
  if 'A' ≤ c && c ≤ 'Z' then Char.ofNat (c.toNat + 32) else c

/-- ASCII lower-casing of a string (models `String.prototype.toLowerCase`
on the ASCII inputs this development uses). -/
def toLowerAsciiStr (s : String) : String := String.mk (s.data.map toLowerAscii)

/-- JavaScript `String.prototype.trim` on a character list. -/
def jsTrimList (l : List Char) : List Char :=
  ((l.dropWhile isJsWs).reverse.dropWhile isJsWs).reverse

/-- JavaScript `String.prototype.trim`. -/
def jsTrimStr (s : String) : String := String.mk (jsTrimList s.data)

/-! ## UTF-8 encoding (Node `Buffer.from(string)`) -/

/-- UTF-8 encoding of one Unicode code point, as a list of byte values. -/
def utf8Bytes (c : Nat) : List Nat :=
  if c < 128 then [c]
  else if c < 2048 then [192 + c / 64, 128 + c % 64]
  else if c < 65536 then [224 + c / 4096, 128 + (c / 64) % 64, 128 + c % 64]
  else [240 + c / 262144, 128 + (c / 4096) % 64, 128 + (c / 64) % 64, 128 + c % 64]

/-- The UTF-8 bytes of a string (what `Buffer.from(s)` holds). -/
def strBytes (s : String) : List Nat := s.data.flatMap (fun c => utf8Bytes c.toNat)

/-! ## SHA-256 (crypto.createHash("sha256")) -/

/-- Truncation to a 32-bit word. -/
def w32 (x : Nat) : Nat := x % 4294967296

/-- Right rotation of a 32-bit word by `n` bits. -/
def rotr32 (n x : Nat) : Nat := w32 ((x >>> n) ||| (x <<< (32 - n)))

def sha256BigSigma0 (x : Nat) : Nat := rotr32 2 x ^^^ rotr32 13 x ^^^ rotr32 22 x

def sha256BigSigma1 (x : Nat) : Nat := rotr32 6 x ^^^ rotr32 11 x ^^^ rotr32 25 x

def sha256SmallSigma0 (x : Nat) : Nat := rotr32 7 x ^^^ rotr32 18 x ^^^ (x >>> 3)

def sha256SmallSigma1 (x : Nat) : Nat := rotr32 17 x ^^^ rotr32 19 x ^^^ (x >>> 10)

/-- SHA-256 round constants. -/
def sha256K : List Nat :=
  [1116352408, 1899447441, 3049323471, 3921009573, 961987163, 1508970993,
   2453635748, 2870763221, 3624381080, 310598401, 607225278, 1426881987,
   1925078388, 2162078206, 2614888103, 3248222580, 3835390401, 4022224774,
   264347078, 604807628, 770255983, 1249150122, 1555081692, 1996064986,
   2554220882, 2821834349, 2952996808, 3210313671, 3336571891, 3584528711,
   113926993, 338241895, 666307205, 773529912, 1294757372, 1396182291,
   1695183700, 1986661051, 2177026350, 2456956037, 2730485921, 2820302411,
   3259730800, 3345764771, 3516065817, 3600352804, 4094571909, 275423344,
   430227734, 506948616, 659060556, 883997877, 958139571, 1322822218,
   1537002063, 1747873779, 1955562222, 2024104815, 2227730452, 2361852424,
   2428436474, 2756734187, 3204031479, 3329325298]

/-- SHA-256 initial hash state. -/
def sha256H0 : List Nat :=
  [1779033703, 3144134277, 1013904242, 2773480762, 1359893119, 2600822924,
   528734635, 1541459225]

/-- Big-endian byte serialization of `x` into `n` bytes. -/
def toBytesBE (n x : Nat) : List Nat :=
  (List.range n).map (fun i => (x >>> (8 * (n - 1 - i))) % 256)



/-- SHA-256 message schedule of one 64-byte chunk (64 words). -/
def sha256Schedule (chunk : List Nat) : List Nat :=
  let w16 := (List.range 16).map (fun i =>
    ((chunk.getD (4 * i) 0) <<< 24) + ((chunk.getD (4 * i + 1) 0) <<< 16) +
    ((chunk.getD (4 * i + 2) 0) <<< 8) + chunk.getD (4 * i + 3) 0)
  (List.range 48).foldl (fun w _ =>
    let t := w.length
    w ++ [w32 (w.getD (t - 16) 0 + sha256SmallSigma0 (w.getD (t - 15) 0) +
               w.getD (t - 7) 0 + sha256SmallSigma1 (w.getD (t - 2) 0))]) w16

/-- SHA-256 compression of one chunk into the running hash state. -/
def sha256Compress (h : List Nat) (chunk : List Nat) : List Nat :=
  let w := sha256Schedule chunk
  let step := fun (st : List Nat) (i : Nat) =>
    match st with
    | [a, b, c, d, e, f, g, hh] =>
      let ch := (e &&& f) ^^^ ((4294967295 - e) &&& g)
      let maj := (a &&& b) ^^^ (a &&& c) ^^^ (b &&& c)
      let t1 := w32 (hh + sha256BigSigma1 e + ch + sha256K.getD i 0 + w.getD i 0)
      let t2 := w32 (sha256BigSigma0 a + maj)
      [w32 (t1 + t2), a, b, c, w32 (d + t1), e, f, g]
    | other => other
  let fin := (List.range 64).foldl step h
  (h.zip fin).map (fun p => w32 (p.1 + p.2))

/-- Folds the SHA-256 compression over the 64-byte chunks of a padded
message; `fuel` is the chunk count. -/
def sha256Chunks : Nat → List Nat → List Nat → List Nat
  | _, [], h => h
  | 0, _, h => h
  | fuel + 1, l, h => sha256Chunks fuel (l.drop 64) (sha256Compress h (l.take 64))

/-- SHA-256 digest of a byte list, as 32 bytes. -/
def sha256 (msg : List Nat) : List Nat :=
  let l := msg.length
  let padLen := (64 + 55 - l % 64) % 64
  let padded := msg ++ [128] ++ List.replicate padLen 0 ++ toBytesBE 8 (8 * l)
  let hs := sha256Chunks (padded.length / 64) padded sha256H0
  hs.flatMap (toBytesBE 4)

/-! ## PKCE helpers (shared/pkce.ts) -/

def base64urlAlphabet : List Char :=
  "ABCDEFGHIJKLMNOPQRSTUVWXYZabcdefghijklmnopqrstuvwxyz0123456789-_".data

def b64c (n : Nat) : Char := base64urlAlphabet.getD n 'A'

/-- Base64url character stream of a byte list (padding already stripped). -/
def base64urlChunks : List Nat → List Char
  | a :: b :: c :: rest =>
    b64c (a >>> 2) :: b64c (((a % 4) <<< 4) + (b >>> 4)) ::
    b64c (((b % 16) <<< 2) + (c >>> 6)) :: b64c (c % 64) :: base64urlChunks rest
  | [a, b] => [b64c (a >>> 2), b64c (((a % 4) <<< 4) + (b >>> 4)), b64c ((b % 16) <<< 2)]
  | [a] => [b64c (a >>> 2), b64c ((a % 4) <<< 4)]
  | [] => []

/-- Base64url encoding without padding (`base64urlEncode` in pkce.ts). -/
def base64urlEncode (input : List Nat) : String := String.mk (base64urlChunks input)

/-- S256 PKCE challenge: base64url of the SHA-256 of the verifier
(`computeS256CodeChallenge` in pkce.ts). -/
def computeS256CodeChallenge (codeVerifier : String) : String :=
  base64urlEncode (sha256 (strBytes codeVerifier))

/-- Constant-time string comparison (`constantTimeEqual` in pkce.ts):
returns false on unequal byte lengths, otherwise compares the UTF-8 bytes. -/
def constantTimeEqual (a b : String) : Bool :=
  let aBuf := strBytes a
  let bBuf := strBytes b
  if aBuf.length ≠ bBuf.length then false else aBuf == bBuf

/-! ## Scope registry (shared/scopes.ts) -/

def SCOPES_SUPPORTED : List String := ["profile:read", "notes:read", "notes:write"]

/-- Splits a character list at every character satisfying `p`, as
`String.prototype.split` produces its pieces. -/
def splitChars (p : Char → Bool) : List Char → List (List Char)
  | [] => [[]]
  | c :: rest =>
    let r := splitChars p rest
    if p c then [] :: r
    else
      match r with
      | [] => [[c]]
      | h :: ts => (c :: h) :: ts

/-- Splits a scope parameter on whitespace runs, dropping empties
(`parseScopeParam`). -/
def parseScopeParam (scope : Option String) : List String :=
  (((splitChars isJsWs (scope.getD "").data).map
      (fun l => jsTrimStr (String.mk l)))).filter (· ≠ "")

/-- First-occurrence deduplication, as JavaScript `new Set(...)` iteration. -/
def dedupFirst : List String → List String
  | [] => []
  | x :: xs => x :: (dedupFirst xs).filter (fun y => y ≠ x)

/-- Lexicographic code-point comparison of character lists (JavaScript
string comparison for the code points this development uses). -/
def charListLe : List Char → List Char → Bool
  | [], _ => true
  | _ :: _, [] => false
  | a :: as, b :: bs =>
    if a.toNat < b.toNat then true
    else if b.toNat < a.toNat then false
    else charListLe as bs

def strLe (a b : String) : Bool := charListLe a.data b.data

/-- Lexicographic sort, as JavaScript `Array.prototype.sort()` on strings. -/
def sortStrings (l : List String) : List String :=
  l.insertionSort (fun a b => strLe a b = true)

/-- Sorted unique scope list (`normalizeScopes`). -/
def normalizeScopes (scopes : List String) : List String :=
  sortStrings (dedupFirst (scopes.filter (· ≠ "")))

/-- Normalized space-joined scope string (`formatScopeParam`). -/
def formatScopeParam (scopes : List String) : String :=
  String.intercalate " " (normalizeScopes scopes)

def isSubsetOfSupportedScopes (requestedScopes : List String) : Bool :=
  requestedScopes.all (fun s => SCOPES_SUPPORTED.contains s)

/-- Scope claim to a set of scopes (`scopeClaimToSet`); a missing or
non-string claim yields the empty set. -/
def scopeClaimToSet (scopeClaim : Option String) : List String :=
  match scopeClaim with
  | none => []
  | some s => dedupFirst (parseScopeParam (some s))

/-- All-of scope check (`hasAllScopes`). -/
def hasAllScopes (granted : List String) (required : List String) : Bool :=
  required.all (fun s => granted.contains s)

/-! ## Token codec (shared/jwt.ts over the jsonwebtoken HS256 library)

The compact JWT wire format is abstracted: a `SignedToken` carries its payload
claims together with the secret its HS256 MAC was produced with, and the MAC
check of `jwt.verify` is modelled as equality of that secret with the
verification secret. -/

/-- The `aud` claim: a single string or an array of strings. -/
inductive AudClaim where
  | single (s : String)
  | multi (l : List String)
deriving DecidableEq, Repr

/-- Payload claims of an access token (`AccessTokenClaims` in jwt.ts); every
field an inbound token might omit is optional. -/
structure AccessTokenClaims where
  iss : Option String
  sub : Option String
  aud : Option AudClaim
  scope : Option String
  exp : Option Int
  iat : Option Int
  name : Option String
deriving DecidableEq, Repr

/-- A signed compact token: payload plus the HS256 key it was signed with. -/
structure SignedToken where
  claims : AccessTokenClaims
  sigSecret : String
deriving DecidableEq, Repr

structure SignAccessTokenParams where
  issuer : String
  subject : String
  audience : String
  scope : String
  name : Option String
  secret : String
  ttlSec : Int
deriving DecidableEq, Repr

/-- Signs an access token (`signAccessToken` in jwt.ts): embeds `iat = now`
and `exp = now + ttl`, and returns the token with its `expiresIn`. -/
def signAccessToken (params : SignAccessTokenParams) (nowSec : Int) :
    SignedToken × Int :=
  let claims : AccessTokenClaims :=
    { iss := some params.issuer
      sub := some params.subject
      aud := some (AudClaim.single params.audience)
      scope := some params.scope
      exp := some (nowSec + params.ttlSec)
      iat := some nowSec
      name := params.name }
  ({ claims := claims, sigSecret := params.secret }, params.ttlSec)

/-- The jsonwebtoken audience check: the token `aud` (single string or array
of strings) must contain the expected audience. -/
def audMatches (aud : Option AudClaim) (expected : String) : Bool :=
  match aud with
  | some (AudClaim.single s) => s == expected
  | some (AudClaim.multi l) => l.contains expected
  | none => false

/-- `jwt.verify(token, secret, signature, issuer, audience)` as used by
jwt.ts: checks the MAC, then `exp` (when present), then `aud`, then `iss`. -/
def jwtVerifyHS256 (token : SignedToken) (secret issuer audience : String)
    (nowSec : Int) : Except String AccessTokenClaims :=
  if token.sigSecret ≠ secret then Except.error "invalid signature"
  else if (match token.claims.exp with
           | some e => decide (e ≤ nowSec)
           | none => false) then Except.error "jwt expired"
  else if ¬ audMatches token.claims.aud audience then
    Except.error "jwt audience invalid. expected: audience"
  else if token.claims.iss ≠ some issuer then
    Except.error "jwt issuer invalid. expected: issuer"
  else Except.ok token.claims

/-- The minimal structural checks of `verifyAccessToken`: `sub` a non-empty
string, `scope` a string, `iss` a string. -/
def verifyStructuralChecks (payload : AccessTokenClaims) :
    Except String AccessTokenClaims :=
  match payload.sub with
  | none => Except.error "Token missing sub"
  | some s =>
    if s = "" then Except.error "Token missing sub"
    else
      match payload.scope with
      | none => Except.error "Token missing scope"
      | some _ =>
        match payload.iss with
        | none => Except.error "Token missing iss"
        | some _ => Except.ok payload

/-- Verifies an access token (`verifyAccessToken` in jwt.ts): library
verification followed by the structural `sub` / `scope` / `iss` checks. -/
def verifyAccessToken (token : SignedToken)
    (secret issuer audience : String) (nowSec : Int) :
    Except String AccessTokenClaims :=
  match jwtVerifyHS256 token secret issuer audience nowSec with
  | Except.error e => Except.error e
  | Except.ok payload => verifyStructuralChecks payload

/-! ## Auth-server store (auth-server/store.ts) -/

structure OAuthClient where
  client_id : String
  client_name : String
  redirect_uris : List String
  token_endpoint_auth_method : String
  created_at : Int
deriving DecidableEq, Repr

structure AuthCodeRecord where
  code : String
  client_id : String
  redirect_uri : String
  resource : String
  scope : String
  code_challenge : String
  code_challenge_method : String
  user_id : String
  user_name : Option String
  created_at : Int
  expires_at : Int
  used : Bool
deriving DecidableEq, Repr

/-- `clientsById` lookup (`findClient`). -/
def findClient (clients : List OAuthClient) (client_id : String) :
    Option OAuthClient :=
  clients.find? (fun c => c.client_id == client_id)

/-- `createClient`: upserts a client, preserving `created_at` when the
client_id already exists; returns the client and the updated registry. -/
def createClient (clients : List OAuthClient) (client_id : String)
    (client_name : String) (redirect_uris : List String) (now : Int) :
    OAuthClient × List OAuthClient :=
  let existing := findClient clients client_id
  let client : OAuthClient :=
    { client_id := client_id
      client_name := client_name
      redirect_uris := redirect_uris
      token_endpoint_auth_method := "none"
      created_at := match existing with
                    | some e => e.created_at
                    | none => now }
  (client, client :: clients.filter (fun c => c.client_id ≠ client_id))

/-- `authCodesByCode` lookup (`findAuthCode`). -/
def findAuthCode (store : List AuthCodeRecord) (code : String) :
    Option AuthCodeRecord :=
  store.find? (fun r => r.code == code)

/-- `saveAuthCode`: map-set by code. -/
def saveAuthCode (store : List AuthCodeRecord) (record : AuthCodeRecord) :
    List AuthCodeRecord :=
  record :: store.filter (fun r => r.code ≠ record.code)

/-- `markAuthCodeUsed`: flips `used` to true on the record with this code. -/
def markAuthCodeUsed (store : List AuthCodeRecord) (code : String) :
    List AuthCodeRecord :=
  store.map (fun r => if r.code == code then { r with used := true } else r)

/-! ## Auth-server configuration (auth-server/config.ts) -/

structure AuthServerConfig where
  issuer : String
  mcpResource : String
  jwtSecret : String
  accessTokenTtlSec : Int
  authCodeTtlSec : Int
  allowedRedirectUris : List String
  allowedClientMetadataHosts : List String
deriving DecidableEq, Repr

/-! ## OAuth protocol logic (auth-server/oauth.ts) -/

inductive OAuthErrorCode where
  | invalid_request
  | unauthorized_client
  | invalid_grant
deriving DecidableEq, Repr

structure OAuthError where
  error : OAuthErrorCode
  error_description : Option String
deriving DecidableEq, Repr

structure ValidatedAuthorizeRequest where
  response_type : String
  client_id : String
  redirect_uri : String
  scope : String
  state : String
  code_challenge : String
  code_challenge_method : String
  resource : String
  scopes : List String
deriving DecidableEq, Repr

/-- Query parameters reaching `validateAuthorizeRequest` after `firstString`
extraction; `none` models an absent parameter. -/
structure AuthorizeQuery where
  response_type : Option String
  client_id : Option String
  redirect_uri : Option String
  scope : Option String
  state : Option String
  code_challenge : Option String
  code_challenge_method : Option String
  resource : Option String
deriving DecidableEq, Repr

/-- JavaScript falsiness of an optional string: absent or empty. -/
def isBlank (o : Option String) : Bool :=
  match o with
  | none => true
  | some s => s = ""

def strOrEmpty (o : Option String) : String := o.getD ""

inductive AuthorizeValidation where
  | ok (request : ValidatedAuthorizeRequest) (client : OAuthClient)
  | err (e : OAuthError)
deriving DecidableEq, Repr

/-- `validateAuthorizeRequest` from oauth.ts. -/
def validateAuthorizeRequest (query : AuthorizeQuery)
    (config : AuthServerConfig) (client : Option OAuthClient) :
    AuthorizeValidation :=
  if query.response_type ≠ some "code" then
    AuthorizeValidation.err
      ⟨OAuthErrorCode.invalid_request, some "response_type must be code"⟩
  else if isBlank query.client_id || isBlank query.redirect_uri ||
          isBlank query.code_challenge || isBlank query.code_challenge_method ||
          isBlank query.resource then
    AuthorizeValidation.err
      ⟨OAuthErrorCode.invalid_request, some "Missing required parameters"⟩
  else
    match client with
    | none =>
      AuthorizeValidation.err
        ⟨OAuthErrorCode.unauthorized_client, some "Unknown client_id"⟩
    | some c =>
      if ¬ c.redirect_uris.contains (strOrEmpty query.redirect_uri) then
        AuthorizeValidation.err
          ⟨OAuthErrorCode.invalid_request,
           some "redirect_uri not allowed for this client"⟩
      else if strOrEmpty query.code_challenge_method ≠ "S256" then
        AuthorizeValidation.err
          ⟨OAuthErrorCode.invalid_request,
           some "code_challenge_method must be S256"⟩
      else if strOrEmpty query.resource ≠ config.mcpResource then
        AuthorizeValidation.err
          ⟨OAuthErrorCode.invalid_request,
           some "resource must match MCP_RESOURCE"⟩
      else
        let requestedScopes :=
          normalizeScopes (parseScopeParam (some (strOrEmpty query.scope)))
        if requestedScopes.length = 0 then
          AuthorizeValidation.err
            ⟨OAuthErrorCode.invalid_request, some "scope is required"⟩
        else if ¬ isSubsetOfSupportedScopes requestedScopes then
          AuthorizeValidation.err
            ⟨OAuthErrorCode.invalid_request,
             some "Requested scope is not supported"⟩
        else
          AuthorizeValidation.ok
            { response_type := "code"
              client_id := strOrEmpty query.client_id
              redirect_uri := strOrEmpty query.redirect_uri
              scope := String.intercalate " " requestedScopes
              state := strOrEmpty query.state
              code_challenge := strOrEmpty query.code_challenge
              code_challenge_method := "S256"
              resource := strOrEmpty query.resource
              scopes := requestedScopes } c

structure RedeemParams where
  code : String
  client : Option OAuthClient
  client_id : String
  redirect_uri : String
  resource : String
  code_verifier : String
deriving DecidableEq, Repr

inductive RedeemResult where
  | ok (access_token : SignedToken) (token_type : String)
      (expires_in : Int) (scope : String)
  | err (e : OAuthError)
deriving DecidableEq, Repr

/-- `redeemAuthorizationCode` from oauth.ts: the token-endpoint redemption
logic, returning the result together with the updated code store
(`markAuthCodeUsed` happens on the success path). `now` is `Date.now()` in
milliseconds. -/
def redeemAuthorizationCode (config : AuthServerConfig)
    (store : List AuthCodeRecord) (params : RedeemParams) (now : Int) :
    RedeemResult × List AuthCodeRecord :=
  match params.client with
  | none =>
    (RedeemResult.err ⟨OAuthErrorCode.unauthorized_client, some "Unknown client_id"⟩,
     store)
  | some _ =>
    match findAuthCode store params.code with
    | none =>
      (RedeemResult.err ⟨OAuthErrorCode.invalid_grant, some "Unknown code"⟩, store)
    | some rec =>
      if rec.used || decide (rec.expires_at ≤ now) then
        (RedeemResult.err
          ⟨OAuthErrorCode.invalid_grant, some "Code expired or already used"⟩, store)
      else if rec.client_id ≠ params.client_id then
        (RedeemResult.err
          ⟨OAuthErrorCode.invalid_grant, some "client_id mismatch"⟩, store)
      else if rec.redirect_uri ≠ params.redirect_uri then
        (RedeemResult.err
          ⟨OAuthErrorCode.invalid_grant, some "redirect_uri mismatch"⟩, store)
      else if rec.resource ≠ params.resource ||
              params.resource ≠ config.mcpResource then
        (RedeemResult.err
          ⟨OAuthErrorCode.invalid_request, some "resource mismatch"⟩, store)
      else if ¬ constantTimeEqual (computeS256CodeChallenge params.code_verifier)
                 rec.code_challenge then
        (RedeemResult.err
          ⟨OAuthErrorCode.invalid_request, some "PKCE verification failed"⟩, store)
      else
        let store' := markAuthCodeUsed store params.code
        let signed := signAccessToken
          { issuer := config.issuer
            subject := rec.user_id
            audience := rec.resource
            scope := rec.scope
            name := rec.user_name
            secret := config.jwtSecret
            ttlSec := config.accessTokenTtlSec } (now / 1000)
        (RedeemResult.ok signed.1 "Bearer" signed.2 rec.scope, store')

/-! ## URL model (WHATWG `new URL` on absolute http(s) URLs)

A simplified absolute-URL parser faithful to `new URL` for the inputs this
development exercises: the scheme and host are lower-cased, a missing path
becomes "/", and `href` re-serializes the components. Ports, userinfo and
percent-encoding are not modelled. -/

structure UrlParts where
  scheme : String
  host : String
  path : String
  query : String
  fragment : String
deriving DecidableEq, Repr

/-- Re-serialized URL (`url.href`). -/
def hrefOf (u : UrlParts) : String :=
  u.scheme ++ "://" ++ u.host ++ u.path ++ u.query ++ u.fragment

/-- The `url.hash` accessor: empty for a lone trailing hash mark. -/
def urlHash (u : UrlParts) : String :=
  if u.fragment = "#" then "" else u.fragment

/-- Splits a character list at the first scheme separator "://". -/
def splitOnSchemeSep : List Char → Option (List Char × List Char)
  | ':' :: '/' :: '/' :: rest => some ([], rest)
  | c :: rest =>
    (splitOnSchemeSep rest).map (fun p => (c :: p.1, p.2))
  | [] => none

def isSchemeChar (c : Char) : Bool :=
  ('a' ≤ c && c ≤ 'z') || ('A' ≤ c && c ≤ 'Z') ||
  ('0' ≤ c && c ≤ '9') || c = '+' || c = '-' || c = '.'

/-- Parses an absolute URL, `none` where `new URL` would throw. -/
def parseUrl (s : String) : Option UrlParts :=
  match splitOnSchemeSep s.data with
  | none => none
  | some (schemeChars, rest) =>
    if schemeChars = [] || ¬ schemeChars.all isSchemeChar then none
    else
      let hostChars := rest.takeWhile (fun c => c ≠ '/' && c ≠ '?' && c ≠ '#')
      let after := rest.dropWhile (fun c => c ≠ '/' && c ≠ '?' && c ≠ '#')
      if hostChars = [] then none
      else
        let pathChars := after.takeWhile (fun c => c ≠ '?' && c ≠ '#')
        let after2 := after.dropWhile (fun c => c ≠ '?' && c ≠ '#')
        let queryChars := after2.takeWhile (fun c => c ≠ '#')
        let fragChars := after2.dropWhile (fun c => c ≠ '#')
        some
          { scheme := String.mk (schemeChars.map toLowerAscii)
            host := String.mk (hostChars.map toLowerAscii)
            path := if pathChars = [] then "/" else String.mk pathChars
            query := String.mk queryChars
            fragment := String.mk fragChars }

/-! ## Client-metadata-URL clients (auth-server/client-metadata.ts) -/

structure ClientIdMetadataDocument where
  client_id : String
  client_name : String
  redirect_uris : List String
  token_endpoint_auth_method : Option String
deriving DecidableEq, Repr

/-- `tryParseAllowedClientMetadataUrl`: https only, non-root path, no
fragment, host in the allow-list. -/
def tryParseAllowedClientMetadataUrl (client_id : String)
    (allowedHosts : List String) : Option UrlParts :=
  match parseUrl client_id with
  | none => none
  | some url =>
    if url.scheme ≠ "https" then none
    else if url.path = "" || url.path = "/" then none
    else if urlHash url ≠ "" then none
    else if ¬ allowedHosts.contains (toLowerAsciiStr url.host) then none
    else some url

/-- `isValidRedirectUri`: parses, refuses fragments, http or https only. -/
def isValidRedirectUri (uri : String) : Bool :=
  match parseUrl uri with
  | none => false
  | some u =>
    if urlHash u ≠ "" then false
    else u.scheme == "http" || u.scheme == "https"

/-- `isLoopbackRedirectUri`: http(s) URL whose host is a loopback address. -/
def isLoopbackRedirectUri (uri : String) : Bool :=
  match parseUrl uri with
  | none => false
  | some u =>
    if ¬ (u.scheme == "http" || u.scheme == "https") then false
    else
      let host := toLowerAsciiStr u.host
      host == "localhost" || host == "127.0.0.1" ||
      host == "[::1]" || host == "::1"

/-- `normalizeRedirectUris`: trim, drop empties, keep valid URIs,
de-duplicate and sort. -/
def normalizeRedirectUris (uris : List String) : List String :=
  sortStrings (dedupFirst (((uris.map jsTrimStr).filter (· ≠ "")).filter isValidRedirectUri))

def arraysEqual (a b : List String) : Bool := a == b

/-- `resolveClientFromClientIdMetadataUrl`: treats an allow-listed HTTPS URL
as a client identity, fetches its metadata document (`fetchDoc` abstracts
`fetchClientMetadataDocumentWithCache`, returning `none` on any fetch, parse
or timeout failure), pins the document's `client_id` to the canonical URL,
enforces the public-client and redirect-URI rules (`isDev` models
`NODE_ENV !== "production"`), and upserts into the client registry. -/
def resolveClientFromClientIdMetadataUrl
    (fetchDoc : String → Option ClientIdMetadataDocument)
    (isDev : Bool) (clients : List OAuthClient) (now : Int)
    (client_id : String) (config : AuthServerConfig)
    (requestedRedirectUri : Option String) :
    Option OAuthClient × List OAuthClient :=
  match tryParseAllowedClientMetadataUrl client_id
        config.allowedClientMetadataHosts with
  | none => (none, clients)
  | some url =>
    let canonicalClientId := hrefOf url
    match fetchDoc canonicalClientId with
    | none => (none, clients)
    | some doc =>
      match parseUrl doc.client_id with
      | none => (none, clients)
      | some claimed =>
        if hrefOf claimed ≠ canonicalClientId then (none, clients)
        else
          let authMethod := jsTrimStr (doc.token_endpoint_auth_method.getD "none")
          if authMethod ≠ "none" then (none, clients)
          else
            let redirectUris := normalizeRedirectUris doc.redirect_uris
            let checked : Option (List String) :=
              match requestedRedirectUri with
              | none => some redirectUris
              | some r =>
                let requested := jsTrimStr r
                if redirectUris.contains requested then some redirectUris
                else if isDev && isLoopbackRedirectUri requested then
                  some (redirectUris ++ [requested])
                else none
            match checked with
            | none => (none, clients)
            | some uriSet =>
              let redirect_uris := sortStrings (dedupFirst uriSet)
              let existing := findClient clients canonicalClientId
              match existing with
              | some ex =>
                if ex.client_name == doc.client_name &&
                   arraysEqual (sortStrings ex.redirect_uris) redirect_uris then
                  (some ex, clients)
                else
                  let r := createClient clients canonicalClientId
                           doc.client_name redirect_uris now
                  (some r.1, r.2)
              | none =>
                let r := createClient clients canonicalClientId
                         doc.client_name redirect_uris now
                (some r.1, r.2)

/-! ## Dynamic client registration (POST /oauth2/register in index.ts) -/

/-- The parsed JSON body of a DCR request: `redirect_uris` is `none` when
absent or not an array, and a `none` entry models a non-string element. -/
structure DcrBody where
  client_name : Option String
  token_endpoint_auth_method : Option String
  redirect_uris : Option (List (Option String))
deriving DecidableEq, Repr

/-- The trim-and-drop-blanks normalization the DCR endpoint applies to
`redirect_uris` entries. -/
def dcrNormalize (uris : List (Option String)) : List String :=
  (uris.map (fun u => match u with
                      | some s => jsTrimStr s
                      | none => "")).filter (· ≠ "")

inductive DcrResponse where
  | invalidClientMetadata
  | created (client_id : String) (client_name : String)
      (redirect_uris : List String) (token_endpoint_auth_method : String)
deriving DecidableEq, Repr

/-- The `POST /oauth2/register` handler: `invalidClientMetadata` is the 400
response `error: invalid_client_metadata`; `created` is the 201 response
carrying the canonical client object. `newClientId` abstracts the generated
random client id. -/
def registerClientDcr (config : AuthServerConfig) (body : DcrBody)
    (newClientId : String) : DcrResponse :=
  let client_name := body.client_name.getD "ChatGPT Connector"
  let token_endpoint_auth_method := body.token_endpoint_auth_method.getD "none"
  match body.redirect_uris with
  | none => DcrResponse.invalidClientMetadata
  | some uris =>
    if uris.length = 0 then DcrResponse.invalidClientMetadata
    else if token_endpoint_auth_method ≠ "none" then
      DcrResponse.invalidClientMetadata
    else
      let normalized := dcrNormalize uris
      if normalized.length = 0 then DcrResponse.invalidClientMetadata
      else if ¬ normalized.all (fun uri => config.allowedRedirectUris.contains uri) then
        DcrResponse.invalidClientMetadata
      else
        DcrResponse.created newClientId client_name normalized "none"

/-! ## Resource-server guard (app/mcp/auth.ts and app/mcp/route.ts) -/

/-- Group capture of the bearer regex after the scheme keyword and with the
dollar-anchor newline already stripped: at least one whitespace character,
then a non-empty group of non-newline characters reaching the end
(backtracking can leave one whitespace character for the group when nothing
else follows). -/
def matchBearerGroup (rest : List Char) : Option (List Char) :=
  let w := rest.takeWhile isJsWs
  let t := rest.dropWhile isJsWs
  if w = [] then none
  else if t ≠ [] then
    if t.contains '\n' then none else some t
  else
    match w.getLast? with
    | some c => if 2 ≤ w.length && c ≠ '\n' then some [c] else none
    | none => none

/-- Tail matching for the bearer regex after the scheme keyword: the dollar
anchor tolerates one final newline. -/
def matchBearerRest (rest : List Char) : Option (List Char) :=
  matchBearerGroup (if rest.getLast? = some '\n' then rest.dropLast else rest)

/-- The case-insensitive anchored bearer regex of
`parseBearerTokenFromHeader`: matches a "Bearer" keyword in any ASCII case
followed by whitespace and the captured token group. -/
def matchBearer (l : List Char) : Option (List Char) :=
  if 6 ≤ l.length && (l.take 6).map toLowerAscii = "bearer".data then
    matchBearerRest (l.drop 6)
  else none

/-- `parseBearerTokenFromHeader`: `none` for an absent header, a non-matching
header, or a group that trims to the empty string. -/
def parseBearerTokenFromHeader (header : Option String) : Option String :=
  match header with
  | none => none
  | some s =>
    match matchBearer s.data with
    | none => none
    | some g =>
      let t := jsTrimList g
      if t = [] then none else some (String.mk t)

structure VerifiedAuthContext where
  token : String
  claims : AccessTokenClaims
  sub : String
  name : Option String
  scopes : List String
deriving DecidableEq, Repr

inductive VerifyResult where
  | none
  | invalid (reason : String)
  | valid (ctx : VerifiedAuthContext)
deriving DecidableEq, Repr

/-- `verifyBearerFromRequest`: extracts the bearer token from the
authorization header and verifies it; `verify` abstracts
`verifyAccessToken` applied to the configured secret, issuer and audience
(the wire-format decoding of the compact token string included). -/
def verifyBearerFromRequest (header : Option String)
    (verify : String → Except String AccessTokenClaims) : VerifyResult :=
  match parseBearerTokenFromHeader header with
  | Option.none => VerifyResult.none
  | Option.some token =>
    match verify token with
    | Except.error e => VerifyResult.invalid e
    | Except.ok claims =>
      VerifyResult.valid
        { token := token
          claims := claims
          sub := claims.sub.getD ""
          name := claims.name
          scopes := scopeClaimToSet claims.scope }

inductive ToolPolicy where
  | public
  | required (requiredScopes : List String)
  | optional (optionalScopes : List String)
deriving DecidableEq, Repr

def TOOL_POLICIES : List (String × ToolPolicy) :=
  [("auth_show", ToolPolicy.public),
   ("auth_whoami", ToolPolicy.required ["profile:read"]),
   ("notes_list", ToolPolicy.required ["notes:read"]),
   ("notes_add", ToolPolicy.required ["notes:write"]),
   ("notes_teaser", ToolPolicy.optional ["notes:read"])]

def getToolPolicy (toolName : Option String) : Option ToolPolicy :=
  toolName.bind (fun n => (TOOL_POLICIES.find? (fun p => p.1 == n)).map (·.2))

/-- Minimal quoted-string escaping (`escapeHeaderValue`). -/
def escapeHeaderValue (v : String) : String :=
  String.mk (v.data.flatMap (fun c =>
    if c = '\\' then ['\\', '\\'] else if c = '"' then ['\\', '"'] else [c]))

structure WwwAuthParams where
  scope : Option String
  error : Option String
  error_description : Option String
deriving DecidableEq, Repr

/-- `buildWwwAuthenticate`: the Bearer challenge header value pointing at the
protected-resource metadata URL, with optional scope, error and
error_description parameters. -/
def buildWwwAuthenticate (resourceMetadataUrl : String)
    (params : WwwAuthParams) : String :=
  let parts :=
    ["Bearer resource_metadata=\"" ++ escapeHeaderValue resourceMetadataUrl ++ "\""]
    ++ (match params.scope with
        | some s => ["scope=\"" ++ escapeHeaderValue s ++ "\""]
        | none => [])
    ++ (match params.error with
        | some e => ["error=\"" ++ e ++ "\""]
        | none => [])
    ++ (match params.error_description with
        | some d => ["error_description=\"" ++ escapeHeaderValue d ++ "\""]
        | none => [])
  String.intercalate ", " parts

/-- Outcome of the route-level auth gate for one tools/call request: either
the request proceeds to the underlying handler with a request-scoped context
(absent for anonymous callers), or it is denied with an HTTP status, a
WWW-Authenticate challenge (mirrored into the protocol-level error payload),
and a message. -/
inductive GuardDecision where
  | allow (ctx : Option VerifiedAuthContext)
  | deny (status : Nat) (wwwAuthenticate : String) (message : String)
deriving DecidableEq, Repr

/-- The per-tool auth gating of the POST route handler in route.ts, for a
tools/call request naming a tool with the given policy lookup result. -/
def gateToolCall (resourceMetadataUrl : String) (policy : Option ToolPolicy)
    (verified : VerifyResult) : GuardDecision :=
  let ctxForHandler : Option VerifiedAuthContext :=
    match verified with
    | VerifyResult.valid ctx => some ctx
    | _ => none
  match policy with
  | Option.none => GuardDecision.allow ctxForHandler
  | Option.some p =>
    match p, verified with
    | ToolPolicy.required scopes, VerifyResult.none =>
      GuardDecision.deny 401
        (buildWwwAuthenticate resourceMetadataUrl
          { scope := some (String.intercalate " " scopes)
            error := some "insufficient_scope"
            error_description := some "You need to login to continue" })
        "Authentication required: no access token provided."
    | ToolPolicy.required scopes, VerifyResult.invalid _ =>
      GuardDecision.deny 401
        (buildWwwAuthenticate resourceMetadataUrl
          { scope := some (String.intercalate " " scopes)
            error := some "invalid_token"
            error_description := some "Token invalid or expired" })
        "Authentication required."
    | ToolPolicy.required scopes, VerifyResult.valid ctx =>
      let missing := scopes.filter (fun s => ! ctx.scopes.contains s)
      if missing.length > 0 then
        GuardDecision.deny 403
          (buildWwwAuthenticate resourceMetadataUrl
            { scope := some (String.intercalate " " scopes)
              error := some "insufficient_scope"
              error_description := some "Re-authorize to grant required access" })
          "Insufficient scope."
      else GuardDecision.allow (some ctx)
    | ToolPolicy.optional scopes, VerifyResult.invalid _ =>
      GuardDecision.deny 401
        (buildWwwAuthenticate resourceMetadataUrl
          { scope := some (String.intercalate " " scopes)
            error := some "invalid_token"
            error_description := some "Token invalid or expired" })
        "Authentication required."
    | _, _ => GuardDecision.allow ctxForHandler

/-- Structured content modes of the `notes_teaser` tool. -/
inductive NotesTeaserResponse where
  | publicTeaser
  | privateNotes (userId : String)
deriving DecidableEq, Repr

/-- The `notes_teaser` tool handler from route.ts: private notes when the
request-scoped context holds the notes:read scope, the public teaser
otherwise. -/
def notes_teaser (ctx : Option VerifiedAuthContext) : NotesTeaserResponse :=
  match ctx with
  | some c =>
    if c.scopes.contains "notes:read" then NotesTeaserResponse.privateNotes c.sub
    else NotesTeaserResponse.publicTeaser
  | none => NotesTeaserResponse.publicTeaser

inductive ToolCallOutcome where
  | denied (status : Nat) (wwwAuthenticate : String) (message : String)
  | teaser (r : NotesTeaserResponse)
deriving DecidableEq, Repr

/-- End-to-end outcome of a tools/call request naming `notes_teaser`: the
route-level gate followed by the tool handler under the resulting context. -/
def callNotesTeaser (resourceMetadataUrl : String) (verified : VerifyResult) :
    ToolCallOutcome :=
  match gateToolCall resourceMetadataUrl (getToolPolicy (some "notes_teaser"))
        verified with
  | GuardDecision.deny s w m => ToolCallOutcome.denied s w m
  | GuardDecision.allow ctx => ToolCallOutcome.teaser (notes_teaser ctx)

/-! ## Supporting lemmas -/

theorem constantTimeEqual_self (s : String) : constantTimeEqual s s = true := by
  simp [constantTimeEqual]

theorem findAuthCode_markAuthCodeUsed (store : List AuthCodeRecord) (code : String) :
    findAuthCode (markAuthCodeUsed store code) code =
      (findAuthCode store code).map (fun r => { r with used := true }) := by
  induction store with
  | nil => rfl
  | cons r rest ih =>
    simp only [markAuthCodeUsed] at ih ⊢
    by_cases h : r.code = code
    · subst h
      simp [findAuthCode, List.find?_cons]
    · have hb : (r.code == code) = false := by simpa using h
      simp only [List.map_cons, hb, Bool.false_eq_true, if_false]
      simp only [findAuthCode, List.find?_cons, hb] at ih ⊢
      exact ih

/-! ## C9 -/

/-- C9: `computeS256CodeChallenge` is a pure function, so the constant-time
comparison of the challenge of a verifier with itself is always true; and
`constantTimeEqual` returns false whenever its arguments have unequal byte
lengths. -/
theorem pkce_roundtrip_and_length_check :
    (∀ v : String,
      constantTimeEqual (computeS256CodeChallenge v) (computeS256CodeChallenge v) = true) ∧
    (∀ a b : String, (strBytes a).length ≠ (strBytes b).length →
      constantTimeEqual a b = false) := by
  refine ⟨fun v => constantTimeEqual_self _, fun a b h => ?_⟩
  simp [constantTimeEqual, h]

theorem pkce_roundtrip_and_length_check_witness :
    constantTimeEqual
        (computeS256CodeChallenge "dBjftJeZ4CVP-mB92K27uhbUJU1p1r_wW1gFWFOEjXk")
        (computeS256CodeChallenge "dBjftJeZ4CVP-mB92K27uhbUJU1p1r_wW1gFWFOEjXk") = true ∧
    constantTimeEqual "a" "bc" = false :=
  ⟨pkce_roundtrip_and_length_check.1 _,
   pkce_roundtrip_and_length_check.2 "a" "bc" (by decide)⟩

/-! ## C2 -/

/-- Specification rendering of the redemption checks, stated in the order
the spec lists them, for a request whose client resolved. -/
def redeemChecksSpec (config : AuthServerConfig) (store : List AuthCodeRecord)
    (params : RedeemParams) (now : Int) : RedeemResult × List AuthCodeRecord :=
  match findAuthCode store params.code with
  | none =>
    (RedeemResult.err ⟨OAuthErrorCode.invalid_grant, some "Unknown code"⟩, store)
  | some rec =>
    if rec.used then
      (RedeemResult.err
        ⟨OAuthErrorCode.invalid_grant, some "Code expired or already used"⟩, store)
    else if rec.expires_at ≤ now then
      (RedeemResult.err
        ⟨OAuthErrorCode.invalid_grant, some "Code expired or already used"⟩, store)
    else if params.client_id ≠ rec.client_id then
      (RedeemResult.err
        ⟨OAuthErrorCode.invalid_grant, some "client_id mismatch"⟩, store)
    else if params.redirect_uri ≠ rec.redirect_uri then
      (RedeemResult.err
        ⟨OAuthErrorCode.invalid_grant, some "redirect_uri mismatch"⟩, store)
    else if ¬ (rec.resource = params.resource ∧ params.resource = config.mcpResource) then
      (RedeemResult.err
        ⟨OAuthErrorCode.invalid_request, some "resource mismatch"⟩, store)
    else if ¬ constantTimeEqual (computeS256CodeChallenge params.code_verifier)
               rec.code_challenge then
      (RedeemResult.err
        ⟨OAuthErrorCode.invalid_request, some "PKCE verification failed"⟩, store)
    else
      let signed := signAccessToken
        { issuer := config.issuer
          subject := rec.user_id
          audience := rec.resource
          scope := rec.scope
          name := rec.user_name
          secret := config.jwtSecret
          ttlSec := config.accessTokenTtlSec } (now / 1000)
      (RedeemResult.ok signed.1 "Bearer" signed.2 rec.scope,
       markAuthCodeUsed store params.code)

/-- C2: for a resolved client, `redeemAuthorizationCode` performs exactly the
spec-ordered checks — unknown code, used-or-expired, client_id binding,
redirect_uri binding, three-way resource equality, constant-time PKCE
comparison — aborting on the first failure with the stated error, and only
when all pass marks the code used and signs a token. -/
theorem redeemAuthorizationCode_check_order (config : AuthServerConfig)
    (store : List AuthCodeRecord) (params : RedeemParams) (now : Int)
    (c : OAuthClient) (h : params.client = some c) :
    redeemAuthorizationCode config store params now =
      redeemChecksSpec config store params now := by
  unfold redeemAuthorizationCode redeemChecksSpec
  rw [h]
  cases hf : findAuthCode store params.code with
  | none => rfl
  | some rec =>
    by_cases hu : rec.used = true
    · simp [hu]
    · by_cases he : rec.expires_at ≤ now
      · simp [hu, he]
      · by_cases hc : rec.client_id = params.client_id
        · by_cases hr : rec.redirect_uri = params.redirect_uri
          · by_cases hres : rec.resource = params.resource ∧
                params.resource = config.mcpResource
            · simp [hu, he, hc, hr, hres.1, hres.2]
            · rw [not_and_or] at hres
              rcases hres with hres | hres <;> simp [hu, he, hc, hr, hres, eq_comm]
          · simp [hu, he, hc, hr, eq_comm, Ne.symm]
        · simp [hu, he, hc, eq_comm, Ne.symm]

theorem redeemAuthorizationCode_check_order_witness :
    redeemAuthorizationCode
        ⟨"https://as.example", "https://rs.example/mcp", "k", 600, 600, [], []⟩
        [] ⟨"ac_1", some ⟨"cid_1", "Demo", ["https://client.example/cb"], "none", 0⟩,
            "cid_1", "https://client.example/cb", "https://rs.example/mcp", "v"⟩ 0 =
      redeemChecksSpec
        ⟨"https://as.example", "https://rs.example/mcp", "k", 600, 600, [], []⟩
        [] ⟨"ac_1", some ⟨"cid_1", "Demo", ["https://client.example/cb"], "none", 0⟩,
            "cid_1", "https://client.example/cb", "https://rs.example/mcp", "v"⟩ 0 :=
  redeemAuthorizationCode_check_order _ _ _ _
    ⟨"cid_1", "Demo", ["https://client.example/cb"], "none", 0⟩ rfl

/-! ## C1 -/

/-- C1 (amended): once a redemption of a code succeeds, that call marks the
record used, and every subsequent redemption presenting the same code with a
resolvable client — any verifier, redirect_uri or resource — fails with
`invalid_grant`; a subsequent call whose client_id does not resolve fails
with `unauthorized_client` instead. The first redemption with the correct
verifier and matching bindings is the one that succeeds. -/
theorem redeemAuthorizationCode_single_use (config : AuthServerConfig)
    (store : List AuthCodeRecord) (p p2 : RedeemParams) (now now2 : Int)
    (rec : AuthCodeRecord) (c : OAuthClient)
    (hclient : p.client = some c)
    (hfind : findAuthCode store p.code = some rec)
    (hused : rec.used = false)
    (hfresh : now < rec.expires_at)
    (hcid : rec.client_id = p.client_id)
    (hred : rec.redirect_uri = p.redirect_uri)
    (hres : rec.resource = p.resource)
    (hmcp : p.resource = config.mcpResource)
    (hchal : computeS256CodeChallenge p.code_verifier = rec.code_challenge)
    (hcode2 : p2.code = p.code) :
    redeemAuthorizationCode config store p now =
      (RedeemResult.ok
        (signAccessToken
          { issuer := config.issuer
            subject := rec.user_id
            audience := rec.resource
            scope := rec.scope
            name := rec.user_name
            secret := config.jwtSecret
            ttlSec := config.accessTokenTtlSec } (now / 1000)).1
        "Bearer" config.accessTokenTtlSec rec.scope,
       markAuthCodeUsed store p.code) ∧
    (∀ c2, p2.client = some c2 →
      (redeemAuthorizationCode config (markAuthCodeUsed store p.code) p2 now2).1 =
        RedeemResult.err
          ⟨OAuthErrorCode.invalid_grant, some "Code expired or already used"⟩) ∧
    (p2.client = none →
      (redeemAuthorizationCode config (markAuthCodeUsed store p.code) p2 now2).1 =
        RedeemResult.err
          ⟨OAuthErrorCode.unauthorized_client, some "Unknown client_id"⟩) := by
  refine ⟨?_, ?_, ?_⟩
  · have hexp : ¬ rec.expires_at ≤ now := by omega
    simp [redeemAuthorizationCode, hclient, hfind, hused, hexp, hcid, hred, hres,
          hmcp, ← hchal, constantTimeEqual_self, signAccessToken]
  · intro c2 h2
    have hf2 : findAuthCode (markAuthCodeUsed store p.code) p2.code =
        some { rec with used := true } := by
      rw [hcode2, findAuthCode_markAuthCodeUsed, hfind]; rfl
    unfold redeemAuthorizationCode
    rw [h2, hf2]
    simp
  · intro h2
    unfold redeemAuthorizationCode
    rw [h2]

theorem redeemAuthorizationCode_single_use_witness :
    redeemAuthorizationCode
        ⟨"https://as.example", "https://rs.example/mcp", "k", 600, 600, [], []⟩
        [⟨"ac_1", "cid_1", "https://client.example/cb", "https://rs.example/mcp",
          "notes:read", computeS256CodeChallenge "v", "S256", "u_123", some "Alex",
          0, 1000000, false⟩]
        ⟨"ac_1", some ⟨"cid_1", "Demo", ["https://client.example/cb"], "none", 0⟩,
         "cid_1", "https://client.example/cb", "https://rs.example/mcp", "v"⟩ 1000 =
      (RedeemResult.ok
        (signAccessToken
          ⟨"https://as.example", "u_123", "https://rs.example/mcp", "notes:read",
           some "Alex", "k", 600⟩ (1000 / 1000)).1
        "Bearer" 600 "notes:read",
       markAuthCodeUsed
        [⟨"ac_1", "cid_1", "https://client.example/cb", "https://rs.example/mcp",
          "notes:read", computeS256CodeChallenge "v", "S256", "u_123", some "Alex",
          0, 1000000, false⟩] "ac_1") ∧
    (redeemAuthorizationCode
        ⟨"https://as.example", "https://rs.example/mcp", "k", 600, 600, [], []⟩
        (markAuthCodeUsed
          [⟨"ac_1", "cid_1", "https://client.example/cb", "https://rs.example/mcp",
            "notes:read", computeS256CodeChallenge "v", "S256", "u_123", some "Alex",
            0, 1000000, false⟩] "ac_1")
        ⟨"ac_1", some ⟨"cid_1", "Demo", ["https://client.example/cb"], "none", 0⟩,
         "cid_1", "https://client.example/cb", "https://rs.example/mcp", "other"⟩
        2000).1 =
      RedeemResult.err
        ⟨OAuthErrorCode.invalid_grant, some "Code expired or already used"⟩ := by
  have h := redeemAuthorizationCode_single_use
    ⟨"https://as.example", "https://rs.example/mcp", "k", 600, 600, [], []⟩
    [⟨"ac_1", "cid_1", "https://client.example/cb", "https://rs.example/mcp",
      "notes:read", computeS256CodeChallenge "v", "S256", "u_123", some "Alex",
      0, 1000000, false⟩]
    ⟨"ac_1", some ⟨"cid_1", "Demo", ["https://client.example/cb"], "none", 0⟩,
     "cid_1", "https://client.example/cb", "https://rs.example/mcp", "v"⟩
    ⟨"ac_1", some ⟨"cid_1", "Demo", ["https://client.example/cb"], "none", 0⟩,
     "cid_1", "https://client.example/cb", "https://rs.example/mcp", "other"⟩
    1000 2000
    ⟨"ac_1", "cid_1", "https://client.example/cb", "https://rs.example/mcp",
     "notes:read", computeS256CodeChallenge "v", "S256", "u_123", some "Alex",
     0, 1000000, false⟩
    ⟨"cid_1", "Demo", ["https://client.example/cb"], "none", 0⟩
    rfl rfl rfl (by decide) rfl rfl rfl rfl rfl rfl
  exact ⟨h.1, h.2.1 ⟨"cid_1", "Demo", ["https://client.example/cb"], "none", 0⟩ rfl⟩

set_option maxRecDepth 400000 in
theorem redeem_second_attempt_unknown_client_counterexample :
    (redeemAuthorizationCode
        ⟨"https://as.example", "https://rs.example/mcp", "k", 600, 600, [], []⟩
        [⟨"ac_1", "cid_1", "https://client.example/cb", "https://rs.example/mcp",
          "notes:read", computeS256CodeChallenge "v", "S256", "u_123", some "Alex",
          0, 1000000, false⟩]
        ⟨"ac_1", some ⟨"cid_1", "Demo", ["https://client.example/cb"], "none", 0⟩,
         "cid_1", "https://client.example/cb", "https://rs.example/mcp", "v"⟩
        1000).1 =
      RedeemResult.ok
        ⟨⟨some "https://as.example", some "u_123",
          some (AudClaim.single "https://rs.example/mcp"), some "notes:read",
          some 601, some 1, some "Alex"⟩, "k"⟩
        "Bearer" 600 "notes:read" ∧
    (redeemAuthorizationCode
        ⟨"https://as.example", "https://rs.example/mcp", "k", 600, 600, [], []⟩
        (redeemAuthorizationCode
          ⟨"https://as.example", "https://rs.example/mcp", "k", 600, 600, [], []⟩
          [⟨"ac_1", "cid_1", "https://client.example/cb", "https://rs.example/mcp",
            "notes:read", computeS256CodeChallenge "v", "S256", "u_123", some "Alex",
            0, 1000000, false⟩]
          ⟨"ac_1", some ⟨"cid_1", "Demo", ["https://client.example/cb"], "none", 0⟩,
           "cid_1", "https://client.example/cb", "https://rs.example/mcp", "v"⟩
          1000).2
        ⟨"ac_1", none, "cid_unknown", "https://client.example/cb",
         "https://rs.example/mcp", "v"⟩
        2000).1 =
      RedeemResult.err
        ⟨OAuthErrorCode.unauthorized_client, some "Unknown client_id"⟩ ∧
    (∀ d, RedeemResult.err
        (⟨OAuthErrorCode.unauthorized_client, some "Unknown client_id"⟩ : OAuthError) ≠
      RedeemResult.err ⟨OAuthErrorCode.invalid_grant, d⟩) := by
  refine ⟨by decide, by decide, ?_⟩
  intro d h
  simp at h

theorem charListLe_total : ∀ a b : List Char,
    charListLe a b = true ∨ charListLe b a = true
  | [], _ => by left; rfl
  | _ :: _, [] => by right; rfl
  | a :: as, b :: bs => by
    by_cases hab : a.toNat < b.toNat
    · left; simp [charListLe, hab]
    · by_cases hba : b.toNat < a.toNat
      · right; simp [charListLe, hba]
      · rcases charListLe_total as bs with h | h
        · left; simp [charListLe, hab, hba, h]
        · right; simp [charListLe, hab, hba, h]

theorem charListLe_trans : ∀ a b c : List Char,
    charListLe a b = true → charListLe b c = true → charListLe a c = true
  | [], _, _ => by intro _ _; rfl
  | a :: as, [], _ => by intro h _; simp [charListLe] at h
  | _ :: _, _ :: _, [] => by intro _ h; simp [charListLe] at h
  | a :: as, b :: bs, c :: cs => by
    intro h1 h2
    simp only [charListLe] at h1 h2 ⊢
    split_ifs at h1 h2 ⊢ with g1 g2 g3 g4 g5 g6 <;> try rfl
    all_goals (try omega)
    all_goals (try simp_all)
    exact charListLe_trans as bs cs h1 h2

instance : IsTotal String (fun a b => strLe a b = true) :=
  ⟨fun a b => charListLe_total a.data b.data⟩

instance : IsTrans String (fun a b => strLe a b = true) :=
  ⟨fun a b c => charListLe_trans a.data b.data c.data⟩

theorem mem_dedupFirst {a : String} : ∀ {l : List String},
    a ∈ dedupFirst l ↔ a ∈ l
  | [] => Iff.rfl
  | x :: xs => by
    by_cases h : a = x
    · subst h; simp [dedupFirst]
    · simp [dedupFirst, h, List.mem_filter, @mem_dedupFirst a xs]

theorem nodup_dedupFirst : ∀ l : List String, (dedupFirst l).Nodup
  | [] => List.nodup_nil
  | x :: xs => by
    refine List.Nodup.cons (fun hmem => ?_) ((nodup_dedupFirst xs).filter _)
    have := (List.mem_filter.mp hmem).2
    simp at this

theorem sorted_sortStrings (l : List String) :
    List.Sorted (fun a b => strLe a b = true) (sortStrings l) :=
  List.sorted_insertionSort _ l

theorem nodup_sortStrings {l : List String} (h : l.Nodup) :
    (sortStrings l).Nodup :=
  ((List.perm_insertionSort _ l).symm.nodup h : (sortStrings l).Nodup)

theorem sorted_normalizeScopes (l : List String) :
    List.Sorted (fun a b => strLe a b = true) (normalizeScopes l) :=
  sorted_sortStrings _

theorem nodup_normalizeScopes (l : List String) : (normalizeScopes l).Nodup :=
  nodup_sortStrings (nodup_dedupFirst _)

/-! ## C6 -/

/-- C6: `validateAuthorizeRequest` checks its inputs in order — response_type,
required-parameter presence, client resolution, redirect_uri registration,
challenge method, resource, scope emptiness, scope vocabulary — returning the
first applicable error (`unauthorized_client` only for an unresolved client,
`invalid_request` otherwise), and on success returns the request with the
scopes normalized: sorted and duplicate-free. -/
theorem validateAuthorizeRequest_order (q : AuthorizeQuery)
    (config : AuthServerConfig) (client : Option OAuthClient) :
    (q.response_type ≠ some "code" →
      validateAuthorizeRequest q config client =
        AuthorizeValidation.err
          ⟨OAuthErrorCode.invalid_request, some "response_type must be code"⟩) ∧
    (q.response_type = some "code" →
      (isBlank q.client_id || isBlank q.redirect_uri || isBlank q.code_challenge ||
       isBlank q.code_challenge_method || isBlank q.resource) = true →
      validateAuthorizeRequest q config client =
        AuthorizeValidation.err
          ⟨OAuthErrorCode.invalid_request, some "Missing required parameters"⟩) ∧
    (q.response_type = some "code" →
      (isBlank q.client_id || isBlank q.redirect_uri || isBlank q.code_challenge ||
       isBlank q.code_challenge_method || isBlank q.resource) = false →
      client = none →
      validateAuthorizeRequest q config client =
        AuthorizeValidation.err
          ⟨OAuthErrorCode.unauthorized_client, some "Unknown client_id"⟩) ∧
    (∀ c, q.response_type = some "code" →
      (isBlank q.client_id || isBlank q.redirect_uri || isBlank q.code_challenge ||
       isBlank q.code_challenge_method || isBlank q.resource) = false →
      client = some c →
      c.redirect_uris.contains (strOrEmpty q.redirect_uri) = false →
      validateAuthorizeRequest q config client =
        AuthorizeValidation.err
          ⟨OAuthErrorCode.invalid_request,
           some "redirect_uri not allowed for this client"⟩) ∧
    (∀ c, q.response_type = some "code" →
      (isBlank q.client_id || isBlank q.redirect_uri || isBlank q.code_challenge ||
       isBlank q.code_challenge_method || isBlank q.resource) = false →
      client = some c →
      c.redirect_uris.contains (strOrEmpty q.redirect_uri) = true →
      strOrEmpty q.code_challenge_method ≠ "S256" →
      validateAuthorizeRequest q config client =
        AuthorizeValidation.err
          ⟨OAuthErrorCode.invalid_request,
           some "code_challenge_method must be S256"⟩) ∧
    (∀ c, q.response_type = some "code" →
      (isBlank q.client_id || isBlank q.redirect_uri || isBlank q.code_challenge ||
       isBlank q.code_challenge_method || isBlank q.resource) = false →
      client = some c →
      c.redirect_uris.contains (strOrEmpty q.redirect_uri) = true →
      strOrEmpty q.code_challenge_method = "S256" →
      strOrEmpty q.resource ≠ config.mcpResource →
      validateAuthorizeRequest q config client =
        AuthorizeValidation.err
          ⟨OAuthErrorCode.invalid_request,
           some "resource must match MCP_RESOURCE"⟩) ∧
    (∀ c, q.response_type = some "code" →
      (isBlank q.client_id || isBlank q.redirect_uri || isBlank q.code_challenge ||
       isBlank q.code_challenge_method || isBlank q.resource) = false →
      client = some c →
      c.redirect_uris.contains (strOrEmpty q.redirect_uri) = true →
      strOrEmpty q.code_challenge_method = "S256" →
      strOrEmpty q.resource = config.mcpResource →
      normalizeScopes (parseScopeParam (some (strOrEmpty q.scope))) = [] →
      validateAuthorizeRequest q config client =
        AuthorizeValidation.err
          ⟨OAuthErrorCode.invalid_request, some "scope is required"⟩) ∧
    (∀ c, q.response_type = some "code" →
      (isBlank q.client_id || isBlank q.redirect_uri || isBlank q.code_challenge ||
       isBlank q.code_challenge_method || isBlank q.resource) = false →
      client = some c →
      c.redirect_uris.contains (strOrEmpty q.redirect_uri) = true →
      strOrEmpty q.code_challenge_method = "S256" →
      strOrEmpty q.resource = config.mcpResource →
      normalizeScopes (parseScopeParam (some (strOrEmpty q.scope))) ≠ [] →
      isSubsetOfSupportedScopes
        (normalizeScopes (parseScopeParam (some (strOrEmpty q.scope)))) = false →
      validateAuthorizeRequest q config client =
        AuthorizeValidation.err
          ⟨OAuthErrorCode.invalid_request,
           some "Requested scope is not supported"⟩) ∧
    (∀ c, q.response_type = some "code" →
      (isBlank q.client_id || isBlank q.redirect_uri || isBlank q.code_challenge ||
       isBlank q.code_challenge_method || isBlank q.resource) = false →
      client = some c →
      c.redirect_uris.contains (strOrEmpty q.redirect_uri) = true →
      strOrEmpty q.code_challenge_method = "S256" →
      strOrEmpty q.resource = config.mcpResource →
      normalizeScopes (parseScopeParam (some (strOrEmpty q.scope))) ≠ [] →
      isSubsetOfSupportedScopes
        (normalizeScopes (parseScopeParam (some (strOrEmpty q.scope)))) = true →
      validateAuthorizeRequest q config client =
        AuthorizeValidation.ok
          { response_type := "code"
            client_id := strOrEmpty q.client_id
            redirect_uri := strOrEmpty q.redirect_uri
            scope := String.intercalate " "
              (normalizeScopes (parseScopeParam (some (strOrEmpty q.scope))))
            state := strOrEmpty q.state
            code_challenge := strOrEmpty q.code_challenge
            code_challenge_method := "S256"
            resource := strOrEmpty q.resource
            scopes := normalizeScopes (parseScopeParam (some (strOrEmpty q.scope))) } c ∧
      List.Sorted (fun a b => strLe a b = true)
        (normalizeScopes (parseScopeParam (some (strOrEmpty q.scope)))) ∧
      (normalizeScopes (parseScopeParam (some (strOrEmpty q.scope)))).Nodup) := by
  refine ⟨?_, ?_, ?_, ?_, ?_, ?_, ?_, ?_, ?_⟩
  · intro h; simp [validateAuthorizeRequest, h]
  · intro h1 h2; simp [validateAuthorizeRequest, h1, h2]
  · intro h1 h2 h3; simp [validateAuthorizeRequest, h1, h2, h3]
  · intro c h1 h2 h3 h4
    have h4' : strOrEmpty q.redirect_uri ∉ c.redirect_uris := by
      simpa [List.elem_iff] using h4
    simp [validateAuthorizeRequest, h1, h2, h3, h4']
  · intro c h1 h2 h3 h4 h5
    have h4' : strOrEmpty q.redirect_uri ∈ c.redirect_uris := List.elem_iff.mp h4
    simp [validateAuthorizeRequest, h1, h2, h3, h4', h5]
  · intro c h1 h2 h3 h4 h5 h6
    have h4' : strOrEmpty q.redirect_uri ∈ c.redirect_uris := List.elem_iff.mp h4
    simp [validateAuthorizeRequest, h1, h2, h3, h4', h5, h6]
  · intro c h1 h2 h3 h4 h5 h6 h7
    have h4' : strOrEmpty q.redirect_uri ∈ c.redirect_uris := List.elem_iff.mp h4
    simp [validateAuthorizeRequest, h1, h2, h3, h4', h5, h6, h7,
          List.length_eq_zero]
  · intro c h1 h2 h3 h4 h5 h6 h7 h8
    have h4' : strOrEmpty q.redirect_uri ∈ c.redirect_uris := List.elem_iff.mp h4
    simp [validateAuthorizeRequest, h1, h2, h3, h4', h5, h6, h7, h8,
          List.length_eq_zero]
  · intro c h1 h2 h3 h4 h5 h6 h7 h8
    have h4' : strOrEmpty q.redirect_uri ∈ c.redirect_uris := List.elem_iff.mp h4
    refine ⟨?_, sorted_normalizeScopes _, nodup_normalizeScopes _⟩
    simp [validateAuthorizeRequest, h1, h2, h3, h4', h5, h6, h7, h8,
          List.length_eq_zero]

theorem validateAuthorizeRequest_order_witness :
    validateAuthorizeRequest
      ⟨some "code", some "cid_1", some "https://client.example/cb",
       some "profile:read notes:read", some "st", some "challenge", some "S256",
       some "https://rs.example/mcp"⟩
      ⟨"https://as.example", "https://rs.example/mcp", "k", 600, 600, [], []⟩
      (some ⟨"cid_1", "Demo", ["https://client.example/cb"], "none", 0⟩) =
    AuthorizeValidation.ok
      ⟨"code", "cid_1", "https://client.example/cb", "notes:read profile:read",
       "st", "challenge", "S256", "https://rs.example/mcp",
       ["notes:read", "profile:read"]⟩
      ⟨"cid_1", "Demo", ["https://client.example/cb"], "none", 0⟩ :=
  ((validateAuthorizeRequest_order
      ⟨some "code", some "cid_1", some "https://client.example/cb",
       some "profile:read notes:read", some "st", some "challenge", some "S256",
       some "https://rs.example/mcp"⟩
      ⟨"https://as.example", "https://rs.example/mcp", "k", 600, 600, [], []⟩
      (some ⟨"cid_1", "Demo", ["https://client.example/cb"], "none", 0⟩)).2.2.2.2.2.2.2.2
    ⟨"cid_1", "Demo", ["https://client.example/cb"], "none", 0⟩
    rfl (by decide) rfl (by decide) (by decide) (by decide) (by decide) (by decide)).1

/-! ## C4 -/

theorem filter_not_contains_eq_nil_iff (granted required : List String) :
    (required.filter (fun s => ! granted.contains s)) = [] ↔
      hasAllScopes granted required = true := by
  induction required with
  | nil => simp [hasAllScopes]
  | cons a l ih =>
    simp only [List.filter_cons, hasAllScopes, List.all_cons] at ih ⊢
    by_cases h : granted.contains a = true
    · simp only [h, Bool.not_true, Bool.false_eq_true, if_false, Bool.true_and]
      exact ih
    · have hmem : a ∉ granted := fun hm => h (List.elem_iff.mpr hm)
      simp [hmem]

/-- C4: for a required-scopes tool, the guard rejects a missing token with
HTTP 401 and an insufficient_scope challenge carrying a login-required
message, rejects a present-but-invalid token with HTTP 401 and an
invalid_token challenge, rejects a valid token missing at least one required
scope with HTTP 403 and an insufficient_scope challenge listing the required
scope string, and lets a valid token holding every required scope through to
the tool — all-of enforcement. -/
theorem requiredPolicy_guard_characterization (resourceMetadataUrl : String)
    (scopes : List String) :
    (gateToolCall resourceMetadataUrl (some (ToolPolicy.required scopes))
        VerifyResult.none =
      GuardDecision.deny 401
        (buildWwwAuthenticate resourceMetadataUrl
          { scope := some (String.intercalate " " scopes)
            error := some "insufficient_scope"
            error_description := some "You need to login to continue" })
        "Authentication required: no access token provided.") ∧
    (∀ reason, gateToolCall resourceMetadataUrl (some (ToolPolicy.required scopes))
        (VerifyResult.invalid reason) =
      GuardDecision.deny 401
        (buildWwwAuthenticate resourceMetadataUrl
          { scope := some (String.intercalate " " scopes)
            error := some "invalid_token"
            error_description := some "Token invalid or expired" })
        "Authentication required.") ∧
    (∀ ctx, hasAllScopes ctx.scopes scopes = false →
      gateToolCall resourceMetadataUrl (some (ToolPolicy.required scopes))
          (VerifyResult.valid ctx) =
        GuardDecision.deny 403
          (buildWwwAuthenticate resourceMetadataUrl
            { scope := some (String.intercalate " " scopes)
              error := some "insufficient_scope"
              error_description := some "Re-authorize to grant required access" })
          "Insufficient scope.") ∧
    (∀ ctx, hasAllScopes ctx.scopes scopes = true →
      gateToolCall resourceMetadataUrl (some (ToolPolicy.required scopes))
          (VerifyResult.valid ctx) =
        GuardDecision.allow (some ctx)) := by
  refine ⟨rfl, fun _ => rfl, ?_, ?_⟩
  · intro ctx h
    have hne : (scopes.filter (fun s => ! ctx.scopes.contains s)) ≠ [] := by
      intro hnil
      have hall := (filter_not_contains_eq_nil_iff _ _).mp hnil
      rw [h] at hall
      cases hall
    have hpos : 0 < (scopes.filter (fun s => ! ctx.scopes.contains s)).length :=
      List.length_pos.mpr hne
    simp [gateToolCall]
    obtain ⟨x, hx⟩ := List.exists_mem_of_ne_nil _ hne
    have hx' := List.mem_filter.mp hx
    exact ⟨x, hx'.1, by simpa using hx'.2⟩
  · intro ctx h
    have hnil : (scopes.filter (fun s => ! ctx.scopes.contains s)) = [] :=
      (filter_not_contains_eq_nil_iff _ _).mpr h
    simp only [hasAllScopes] at h
    simp [gateToolCall]
    intro a ha
    exact List.elem_iff.mp (List.all_eq_true.mp h a ha)

theorem requiredPolicy_guard_characterization_witness :
    gateToolCall "https://rs.example/.well-known/oauth-protected-resource"
        (some (ToolPolicy.required ["a", "b"]))
        (VerifyResult.valid
          ⟨"tok", ⟨some "i", some "u", some (AudClaim.single "r"), some "a",
                   some 1, some 0, none⟩, "u", none, ["a"]⟩) =
      GuardDecision.deny 403
        (buildWwwAuthenticate "https://rs.example/.well-known/oauth-protected-resource"
          { scope := some (String.intercalate " " ["a", "b"])
            error := some "insufficient_scope"
            error_description := some "Re-authorize to grant required access" })
        "Insufficient scope." ∧
    gateToolCall "https://rs.example/.well-known/oauth-protected-resource"
        (some (ToolPolicy.required ["a", "b"]))
        (VerifyResult.valid
          ⟨"tok", ⟨some "i", some "u", some (AudClaim.single "r"), some "a b c",
                   some 1, some 0, none⟩, "u", none, ["a", "b", "c"]⟩) =
      GuardDecision.allow
        (some ⟨"tok", ⟨some "i", some "u", some (AudClaim.single "r"), some "a b c",
                       some 1, some 0, none⟩, "u", none, ["a", "b", "c"]⟩) :=
  ⟨(requiredPolicy_guard_characterization
      "https://rs.example/.well-known/oauth-protected-resource" ["a", "b"]).2.2.1
      ⟨"tok", ⟨some "i", some "u", some (AudClaim.single "r"), some "a",
               some 1, some 0, none⟩, "u", none, ["a"]⟩ (by decide),
   (requiredPolicy_guard_characterization
      "https://rs.example/.well-known/oauth-protected-resource" ["a", "b"]).2.2.2
      ⟨"tok", ⟨some "i", some "u", some (AudClaim.single "r"), some "a b c",
               some 1, some 0, none⟩, "u", none, ["a", "b", "c"]⟩ (by decide)⟩

/-! ## C5 -/

/-- C5: for the optional-scopes tool notes_teaser, no token yields the
anonymous-mode response, a valid token lacking the optional scope also yields
the anonymous-mode response, a valid token holding the scope yields the
authenticated-mode response, and a present-but-invalid token yields HTTP 401
with an invalid_token challenge — never a silent downgrade to anonymous. -/
theorem optionalPolicy_notes_teaser_branching (resourceMetadataUrl : String) :
    (callNotesTeaser resourceMetadataUrl VerifyResult.none =
      ToolCallOutcome.teaser NotesTeaserResponse.publicTeaser) ∧
    (∀ ctx, ctx.scopes.contains "notes:read" = false →
      callNotesTeaser resourceMetadataUrl (VerifyResult.valid ctx) =
        ToolCallOutcome.teaser NotesTeaserResponse.publicTeaser) ∧
    (∀ ctx, ctx.scopes.contains "notes:read" = true →
      callNotesTeaser resourceMetadataUrl (VerifyResult.valid ctx) =
        ToolCallOutcome.teaser (NotesTeaserResponse.privateNotes ctx.sub)) ∧
    (∀ reason, callNotesTeaser resourceMetadataUrl (VerifyResult.invalid reason) =
      ToolCallOutcome.denied 401
        (buildWwwAuthenticate resourceMetadataUrl
          { scope := some (String.intercalate " " ["notes:read"])
            error := some "invalid_token"
            error_description := some "Token invalid or expired" })
        "Authentication required.") := by
  refine ⟨rfl, ?_, ?_, fun _ => rfl⟩
  · intro ctx h
    have h' : "notes:read" ∉ ctx.scopes := fun hm => by
      have hc : ctx.scopes.contains "notes:read" = true := List.elem_iff.mpr hm
      rw [h] at hc; cases hc
    simp [callNotesTeaser, gateToolCall, getToolPolicy, TOOL_POLICIES,
          notes_teaser, h']
  · intro ctx h
    have h' : "notes:read" ∈ ctx.scopes := List.elem_iff.mp h
    simp [callNotesTeaser, gateToolCall, getToolPolicy, TOOL_POLICIES,
          notes_teaser, h']

theorem optionalPolicy_notes_teaser_branching_witness :
    callNotesTeaser "https://rs.example/.well-known/oauth-protected-resource"
        (VerifyResult.valid
          ⟨"tok", ⟨some "i", some "u", some (AudClaim.single "r"), some "profile:read",
                   some 1, some 0, none⟩, "u", none, ["profile:read"]⟩) =
      ToolCallOutcome.teaser NotesTeaserResponse.publicTeaser ∧
    callNotesTeaser "https://rs.example/.well-known/oauth-protected-resource"
        (VerifyResult.valid
          ⟨"tok", ⟨some "i", some "u", some (AudClaim.single "r"), some "notes:read",
                   some 1, some 0, none⟩, "u", none, ["notes:read"]⟩) =
      ToolCallOutcome.teaser (NotesTeaserResponse.privateNotes "u") :=
  ⟨(optionalPolicy_notes_teaser_branching
      "https://rs.example/.well-known/oauth-protected-resource").2.1
      ⟨"tok", ⟨some "i", some "u", some (AudClaim.single "r"), some "profile:read",
               some 1, some 0, none⟩, "u", none, ["profile:read"]⟩ (by decide),
   (optionalPolicy_notes_teaser_branching
      "https://rs.example/.well-known/oauth-protected-resource").2.2.1
      ⟨"tok", ⟨some "i", some "u", some (AudClaim.single "r"), some "notes:read",
               some 1, some 0, none⟩, "u", none, ["notes:read"]⟩ (by decide)⟩

/-! ## C3 -/

theorem jwtVerifyHS256_ok_iff (t : SignedToken) (secret issuer audience : String)
    (nowSec : Int) (c : AccessTokenClaims) :
    jwtVerifyHS256 t secret issuer audience nowSec = Except.ok c ↔
      (c = t.claims ∧ t.sigSecret = secret ∧
       (∀ e, t.claims.exp = some e → nowSec < e) ∧
       audMatches t.claims.aud audience = true ∧
       t.claims.iss = some issuer) := by
  unfold jwtVerifyHS256
  by_cases h1 : t.sigSecret = secret
  case neg =>
    rw [if_pos h1]
    apply iff_of_false (fun h => Except.noConfusion h)
    rintro ⟨-, hs, -⟩
    exact h1 hs
  case pos =>
    rw [if_neg (not_not_intro h1)]
    by_cases h2 : (match t.claims.exp with
                   | some e => decide (e ≤ nowSec)
                   | none => false) = true
    case pos =>
      rw [if_pos h2]
      apply iff_of_false (fun h => Except.noConfusion h)
      rintro ⟨-, -, hexp, -, -⟩
      cases hec : t.claims.exp with
      | none => rw [hec] at h2; cases h2
      | some e =>
        rw [hec] at h2
        have hle := of_decide_eq_true h2
        have hlt := hexp e hec
        omega
    case neg =>
      rw [if_neg h2]
      by_cases h3 : audMatches t.claims.aud audience = true
      case neg =>
        rw [if_pos h3]
        apply iff_of_false (fun h => Except.noConfusion h)
        rintro ⟨-, -, -, haud, -⟩
        exact h3 haud
      case pos =>
        rw [if_neg (not_not_intro h3)]
        by_cases h4 : t.claims.iss = some issuer
        case neg =>
          rw [if_pos h4]
          apply iff_of_false (fun h => Except.noConfusion h)
          rintro ⟨-, -, -, -, hiss⟩
          exact h4 hiss
        case pos =>
          rw [if_neg (not_not_intro h4)]
          constructor
          · intro h
            cases h
            refine ⟨rfl, h1, ?_, h3, h4⟩
            intro e he
            rw [he] at h2
            have : ¬ e ≤ nowSec := fun hle => h2 (decide_eq_true hle)
            omega
          · rintro ⟨hc, -⟩
            rw [hc]

theorem verifyStructuralChecks_ok_iff (payload c : AccessTokenClaims) :
    verifyStructuralChecks payload = Except.ok c ↔
      (c = payload ∧ (∃ s, payload.sub = some s ∧ s ≠ "") ∧
       (∃ sc, payload.scope = some sc) ∧ (∃ i, payload.iss = some i)) := by
  obtain ⟨piss, psub, paud, pscope, pexp, piat, pname⟩ := payload
  cases psub with
  | none => simp [verifyStructuralChecks]
  | some s =>
    by_cases hse : s = ""
    · subst hse
      simp [verifyStructuralChecks]
    · cases pscope with
      | none => simp [verifyStructuralChecks, hse]
      | some sc =>
        cases piss with
        | none => simp [verifyStructuralChecks, hse]
        | some i =>
          simp only [verifyStructuralChecks, if_neg hse]
          constructor
          · intro h
            cases h
            exact ⟨rfl, ⟨s, rfl, hse⟩, ⟨sc, rfl⟩, ⟨i, rfl⟩⟩
          · rintro ⟨hc, -⟩
            rw [hc]

/-- Full characterization of `verifyAccessToken` as an iff, including the
structural claim checks. -/
theorem verifyAccessToken_ok_iff (t : SignedToken)
    (secret issuer audience : String) (nowSec : Int) (c : AccessTokenClaims) :
    verifyAccessToken t secret issuer audience nowSec = Except.ok c ↔
      (c = t.claims ∧ t.sigSecret = secret ∧
       (∀ e, t.claims.exp = some e → nowSec < e) ∧
       audMatches t.claims.aud audience = true ∧
       t.claims.iss = some issuer ∧
       (∃ s, t.claims.sub = some s ∧ s ≠ "") ∧
       (∃ sc, t.claims.scope = some sc)) := by
  unfold verifyAccessToken
  cases hj : jwtVerifyHS256 t secret issuer audience nowSec with
  | error e =>
    apply iff_of_false (fun h => Except.noConfusion h)
    rintro ⟨-, h1, h2, h3, h4, -, -⟩
    rw [(jwtVerifyHS256_ok_iff t secret issuer audience nowSec t.claims).mpr
      ⟨rfl, h1, h2, h3, h4⟩] at hj
    cases hj
  | ok payload =>
    obtain ⟨hp, h1, h2, h3, h4⟩ :=
      (jwtVerifyHS256_ok_iff _ _ _ _ _ _).mp hj
    subst hp
    rw [verifyStructuralChecks_ok_iff]
    constructor
    · rintro ⟨hc, hsub, hscope, -⟩
      exact ⟨hc, h1, h2, h3, h4, hsub, hscope⟩
    · rintro ⟨hc, -, -, -, -, hsub, hscope⟩
      exact ⟨hc, hsub, hscope, ⟨issuer, h4⟩⟩

/-- C3: `verifyAccessToken` returns the token's claims exactly when the HS256
MAC was produced with the configured secret, the `exp` claim has not elapsed,
`iss` equals the configured issuer, `aud` equals the configured audience
(as a single string or inside an array of strings), and a non-empty string
`sub` and a string `scope` are present; every token violating any one
condition fails. -/
theorem verifyAccessToken_characterization (t : SignedToken)
    (secret issuer audience : String) (nowSec : Int) :
    ((∃ c, verifyAccessToken t secret issuer audience nowSec = Except.ok c) ↔
      (t.sigSecret = secret ∧
       (∀ e, t.claims.exp = some e → nowSec < e) ∧
       t.claims.iss = some issuer ∧
       (t.claims.aud = some (AudClaim.single audience) ∨
        ∃ l, t.claims.aud = some (AudClaim.multi l) ∧ audience ∈ l) ∧
       (∃ s, t.claims.sub = some s ∧ s ≠ "") ∧
       (∃ sc, t.claims.scope = some sc))) ∧
    (∀ c, verifyAccessToken t secret issuer audience nowSec = Except.ok c →
      c = t.claims) := by
  have haud : audMatches t.claims.aud audience = true ↔
      (t.claims.aud = some (AudClaim.single audience) ∨
       ∃ l, t.claims.aud = some (AudClaim.multi l) ∧ audience ∈ l) := by
    cases ha : t.claims.aud with
    | none => simp [audMatches]
    | some a =>
      cases a with
      | single s => simp [audMatches, beq_iff_eq]
      | multi l => simp [audMatches, List.elem_iff]
  refine ⟨⟨?_, ?_⟩, ?_⟩
  · rintro ⟨c, hc⟩
    obtain ⟨-, h1, h2, h3, h4, h5, h6⟩ :=
      (verifyAccessToken_ok_iff _ _ _ _ _ _).mp hc
    exact ⟨h1, h2, h4, haud.mp h3, h5, h6⟩
  · rintro ⟨h1, h2, h4, h3, h5, h6⟩
    exact ⟨t.claims, (verifyAccessToken_ok_iff _ _ _ _ _ _).mpr
      ⟨rfl, h1, h2, haud.mpr h3, h4, h5, h6⟩⟩
  · intro c hc
    exact ((verifyAccessToken_ok_iff _ _ _ _ _ _).mp hc).1

theorem verifyAccessToken_characterization_witness :
    verifyAccessToken
      ⟨⟨some "https://as.example", some "u_1",
        some (AudClaim.single "https://rs.example/mcp"), some "profile:read",
        some 1000, some 0, none⟩, "k"⟩
      "k" "https://as.example" "https://rs.example/mcp" 500 =
    Except.ok
      ⟨some "https://as.example", some "u_1",
       some (AudClaim.single "https://rs.example/mcp"), some "profile:read",
       some 1000, some 0, none⟩ := by
  have h := verifyAccessToken_characterization
    ⟨⟨some "https://as.example", some "u_1",
      some (AudClaim.single "https://rs.example/mcp"), some "profile:read",
      some 1000, some 0, none⟩, "k"⟩
    "k" "https://as.example" "https://rs.example/mcp" 500
  obtain ⟨c, hc⟩ := h.1.mpr
    ⟨rfl,
     fun e he => by
       injection (show some (1000 : Int) = some e from he) with h'
       omega,
     rfl, Or.inl rfl, ⟨"u_1", rfl, by decide⟩, ⟨"profile:read", rfl⟩⟩
  have hcl := h.2 c hc
  rw [hcl] at hc
  exact hc

/-! ## C10 -/

/-- A header string of the shape the bearer regex accepts: a six-character
scheme word lower-casing to "bearer", at least one whitespace character, and
a remainder containing a non-whitespace character. -/
def isBearerShaped (s : String) : Prop :=
  ∃ sch ws tok : List Char,
    s.data = sch ++ (ws ++ tok) ∧
    sch.map toLowerAscii = "bearer".data ∧
    ws ≠ [] ∧ (∀ c ∈ ws, isJsWs c = true) ∧ (∃ c ∈ tok, isJsWs c = false)

theorem dropWhile_cons_head (p : Char → Bool) :
    ∀ (l : List Char) (c : Char) (cs : List Char),
      l.dropWhile p = c :: cs → p c = false
  | [], c, cs => by intro h; cases h
  | a :: l, c, cs => by
    intro h
    by_cases hp : p a = true
    · rw [List.dropWhile_cons, if_pos hp] at h
      exact dropWhile_cons_head p l c cs h
    · rw [List.dropWhile_cons, if_neg hp] at h
      cases h
      exact Bool.eq_false_iff.mpr hp

theorem matchBearerGroup_some (rest g : List Char)
    (h : matchBearerGroup rest = some g) :
    (∃ w tk, rest = w ++ tk ∧ w ≠ [] ∧ (∀ c ∈ w, isJsWs c = true) ∧
      (∃ c ∈ tk, isJsWs c = false) ∧ g = tk) ∨
    (∃ c, g = [c] ∧ isJsWs c = true) := by
  unfold matchBearerGroup at h
  by_cases hw : rest.takeWhile isJsWs = []
  · rw [if_pos hw] at h; cases h
  · rw [if_neg hw] at h
    by_cases ht : rest.dropWhile isJsWs = []
    · rw [if_neg (not_not_intro ht)] at h
      cases hlast : (rest.takeWhile isJsWs).getLast? with
      | none => rw [hlast] at h; cases h
      | some c =>
        rw [hlast] at h
        dsimp only at h
        by_cases hc : (2 ≤ (rest.takeWhile isJsWs).length && c ≠ '\n') = true
        · rw [if_pos hc] at h
          cases h
          refine Or.inr ⟨c, rfl, ?_⟩
          have hmem : c ∈ rest.takeWhile isJsWs :=
            List.mem_of_mem_getLast? hlast
          exact List.mem_takeWhile_imp hmem
        · rw [if_neg hc] at h; cases h
    · rw [if_pos ht] at h
      by_cases hn : (rest.dropWhile isJsWs).contains '\n' = true
      · rw [if_pos hn] at h; cases h
      · rw [if_neg hn] at h
        cases h
        refine Or.inl ⟨rest.takeWhile isJsWs, rest.dropWhile isJsWs,
          (List.takeWhile_append_dropWhile isJsWs rest).symm,
          hw, fun c hc => List.mem_takeWhile_imp hc, ?_, rfl⟩
        cases hd : rest.dropWhile isJsWs with
        | nil => exact absurd hd ht
        | cons c cs =>
          exact ⟨c, List.mem_cons_self c cs,
                 dropWhile_cons_head isJsWs rest c cs hd⟩

theorem parseBearer_some_shaped (s tok : String)
    (h : parseBearerTokenFromHeader (some s) = some tok) : isBearerShaped s := by
  unfold parseBearerTokenFromHeader at h
  dsimp only at h
  cases hm : matchBearer s.data with
  | none => rw [hm] at h; cases h
  | some g =>
    rw [hm] at h
    dsimp only at h
    by_cases hg : jsTrimList g = []
    · rw [if_pos hg] at h; cases h
    · unfold matchBearer at hm
      by_cases hcond : (6 ≤ s.data.length &&
          (s.data.take 6).map toLowerAscii = "bearer".data) = true
      · rw [if_pos hcond] at hm
        have hcond' := (Bool.and_eq_true _ _).mp hcond
        have hlow : (s.data.take 6).map toLowerAscii = "bearer".data :=
          of_decide_eq_true hcond'.2
        have hsplit : s.data = s.data.take 6 ++ s.data.drop 6 :=
          (List.take_append_drop 6 s.data).symm
        unfold matchBearerRest at hm
        by_cases hlastnl : (s.data.drop 6).getLast? = some '\n'
        · rw [if_pos hlastnl] at hm
          rcases matchBearerGroup_some _ _ hm with
            ⟨w, tk, hsp, hwne, hwall, ⟨c, hcmem, hcws⟩, hgt⟩ | ⟨c, hgc, hcws⟩
          · have hne : s.data.drop 6 ≠ [] := by
              intro hnil; rw [hnil] at hlastnl; cases hlastnl
            have hrest : s.data.drop 6 = (s.data.drop 6).dropLast ++ ['\n'] := by
              have h1 := List.dropLast_append_getLast hne
              have h2 : (s.data.drop 6).getLast hne = '\n' := by
                have := List.getLast?_eq_getLast (s.data.drop 6) hne
                rw [this] at hlastnl
                exact (Option.some.injEq _ _).mp hlastnl
              rw [h2] at h1
              exact h1.symm
            refine ⟨s.data.take 6, w, tk ++ ['\n'], ?_, hlow, hwne, hwall,
              ⟨c, List.mem_append_left _ hcmem, hcws⟩⟩
            calc s.data = s.data.take 6 ++ s.data.drop 6 := hsplit
              _ = s.data.take 6 ++ ((s.data.drop 6).dropLast ++ ['\n']) := by
                    rw [← hrest]
              _ = s.data.take 6 ++ ((w ++ tk) ++ ['\n']) := by rw [hsp]
              _ = s.data.take 6 ++ (w ++ (tk ++ ['\n'])) := by
                    rw [List.append_assoc]
          · subst hgc
            have : jsTrimList [c] = [] := by
              simp [jsTrimList, List.dropWhile_cons, hcws]
            exact absurd this hg
        · rw [if_neg hlastnl] at hm
          rcases matchBearerGroup_some _ _ hm with
            ⟨w, tk, hsp, hwne, hwall, ⟨c, hcmem, hcws⟩, hgt⟩ | ⟨c, hgc, hcws⟩
          · refine ⟨s.data.take 6, w, tk, ?_, hlow, hwne, hwall, ⟨c, hcmem, hcws⟩⟩
            rw [← hsp]
            exact hsplit
          · subst hgc
            have : jsTrimList [c] = [] := by
              simp [jsTrimList, List.dropWhile_cons, hcws]
            exact absurd this hg
      · rw [if_neg hcond] at hm; cases hm

theorem matchBearer_prefix (pre rest : List Char) (h6 : pre.length = 6)
    (hlow : pre.map toLowerAscii = "bearer".data) :
    matchBearer (pre ++ rest) = matchBearerRest rest := by
  unfold matchBearer
  have hlen : 6 ≤ (pre ++ rest).length := by
    rw [List.length_append, h6]
    omega
  have htake : (pre ++ rest).take 6 = pre := by
    rw [← h6]
    exact List.take_left _ _
  have hdrop : (pre ++ rest).drop 6 = rest := by
    rw [← h6]
    exact List.drop_left _ _
  rw [htake, hdrop, if_pos]
  rw [hlow]
  simp only [Bool.and_eq_true, decide_eq_true_eq]
  refine ⟨by omega, trivial⟩

/-- C10: a request whose Authorization header is absent, or present but not
of the bearer shape — a "bearer" keyword in any case, whitespace, and a
token containing a non-whitespace character — is classified "none" by
`verifyBearerFromRequest`, exactly as if no credentials were sent and never
as "invalid"; and the Bearer scheme keyword is matched case-insensitively. -/
theorem verifyBearer_malformed_header_is_none :
    (∀ verify, verifyBearerFromRequest none verify = VerifyResult.none) ∧
    (∀ verify s, ¬ isBearerShaped s →
      verifyBearerFromRequest (some s) verify = VerifyResult.none) ∧
    (∀ verify rest,
      verifyBearerFromRequest (some ("BEARER " ++ rest)) verify =
        verifyBearerFromRequest (some ("Bearer " ++ rest)) verify ∧
      verifyBearerFromRequest (some ("bEaReR " ++ rest)) verify =
        verifyBearerFromRequest (some ("bearer " ++ rest)) verify) := by
  refine ⟨fun _ => rfl, ?_, ?_⟩
  · intro verify s hsh
    cases hp : parseBearerTokenFromHeader (some s) with
    | none => unfold verifyBearerFromRequest; rw [hp]
    | some tok => exact absurd (parseBearer_some_shaped s tok hp) hsh
  · intro verify rest
    constructor
    · have h1 : parseBearerTokenFromHeader (some ("BEARER " ++ rest)) =
          parseBearerTokenFromHeader (some ("Bearer " ++ rest)) := by
        unfold parseBearerTokenFromHeader
        dsimp only
        rw [show matchBearer ("BEARER " ++ rest).data =
              matchBearerRest (' ' :: rest.data) from by
            rw [String.data_append]
            exact matchBearer_prefix ['B', 'E', 'A', 'R', 'E', 'R']
              (' ' :: rest.data) rfl (by decide)]
        rw [show matchBearer ("Bearer " ++ rest).data =
              matchBearerRest (' ' :: rest.data) from by
            rw [String.data_append]
            exact matchBearer_prefix ['B', 'e', 'a', 'r', 'e', 'r']
              (' ' :: rest.data) rfl (by decide)]
      unfold verifyBearerFromRequest
      rw [h1]
    · have h1 : parseBearerTokenFromHeader (some ("bEaReR " ++ rest)) =
          parseBearerTokenFromHeader (some ("bearer " ++ rest)) := by
        unfold parseBearerTokenFromHeader
        dsimp only
        rw [show matchBearer ("bEaReR " ++ rest).data =
              matchBearerRest (' ' :: rest.data) from by
            rw [String.data_append]
            exact matchBearer_prefix ['b', 'E', 'a', 'R', 'e', 'R']
              (' ' :: rest.data) rfl (by decide)]
        rw [show matchBearer ("bearer " ++ rest).data =
              matchBearerRest (' ' :: rest.data) from by
            rw [String.data_append]
            exact matchBearer_prefix ['b', 'e', 'a', 'r', 'e', 'r']
              (' ' :: rest.data) rfl (by decide)]
      unfold verifyBearerFromRequest
      rw [h1]

theorem isBearerShaped_elim (s : String) (h : isBearerShaped s) :
    (s.data.take 6).map toLowerAscii = "bearer".data ∧
    8 ≤ s.data.length ∧ (∃ c ∈ s.data.drop 6, isJsWs c = false) := by
  obtain ⟨sch, ws, tok, hd, hlow, hws, hall, c, hcmem, hcws⟩ := h
  have h6 : sch.length = 6 := by
    have := congrArg List.length hlow
    simpa using this
  have htake : s.data.take 6 = sch := by rw [hd, ← h6, List.take_left]
  have hdrop : s.data.drop 6 = ws ++ tok := by rw [hd, ← h6, List.drop_left]
  refine ⟨by rw [htake]; exact hlow, ?_, ⟨c, ?_, hcws⟩⟩
  · have hl := congrArg List.length hd
    simp only [List.length_append] at hl
    have hw1 : 0 < ws.length := List.length_pos.mpr hws
    have ht1 : 0 < tok.length := List.length_pos.mpr (List.ne_nil_of_mem hcmem)
    omega
  · rw [hdrop]
    exact List.mem_append_right _ hcmem

theorem verifyBearer_malformed_header_is_none_witness :
    verifyBearerFromRequest (some "Basic dXNlcjpwdw==")
      (fun _ => Except.error "unused") = VerifyResult.none ∧
    verifyBearerFromRequest (some "Bearer")
      (fun _ => Except.error "unused") = VerifyResult.none ∧
    verifyBearerFromRequest (some "Bearer   ")
      (fun _ => Except.error "unused") = VerifyResult.none := by
  refine ⟨?_, ?_, ?_⟩
  · apply verifyBearer_malformed_header_is_none.2.1
    intro h
    obtain ⟨hlow, -, -⟩ := isBearerShaped_elim _ h
    exact absurd hlow (by decide)
  · apply verifyBearer_malformed_header_is_none.2.1
    intro h
    obtain ⟨-, hlen, -⟩ := isBearerShaped_elim _ h
    rw [show ("Bearer" : String).data.length = 6 from by decide] at hlen
    omega
  · apply verifyBearer_malformed_header_is_none.2.1
    intro h
    obtain ⟨-, -, c, hcm, hcf⟩ := isBearerShaped_elim _ h
    rw [show ("Bearer   " : String).data.drop 6 = [' ', ' ', ' '] from by decide]
      at hcm
    have hc : c = ' ' := by simpa using hcm
    subst hc
    exact absurd hcf (by decide)

/-! ## C7 -/

theorem resolveClient_exact_string_pinning_counterexample :
    ("https://EXAMPLE.com/client.json" : String) ≠
      "https://example.com/client.json" ∧
    (resolveClientFromClientIdMetadataUrl
      (fun u =>
        if u = "https://example.com/client.json" then
          some ⟨"https://EXAMPLE.com/client.json", "Demo App",
                ["https://app.example/cb"], some "none"⟩
        else none)
      false [] 0 "https://example.com/client.json"
      ⟨"https://as.example", "https://rs.example/mcp", "k", 600, 600, [],
       ["example.com"]⟩
      none).1 ≠ none := by decide

/-- C7 (amended): `resolveClientFromClientIdMetadataUrl` rejects every
fetched metadata document whose declared `client_id` does not parse to a URL
whose canonical serialization equals the canonical fetch URL — semantic URL
equality, not exact string equality: a declared `client_id` that is a
different string but normalizes to the same canonical URL (for example a
differently-cased host) is accepted. -/
theorem resolveClient_rejects_nonmatching_client_id
    (fetchDoc : String → Option ClientIdMetadataDocument) (isDev : Bool)
    (clients : List OAuthClient) (now : Int) (client_id : String)
    (config : AuthServerConfig) (requestedRedirectUri : Option String)
    (url : UrlParts) (doc : ClientIdMetadataDocument)
    (hurl : tryParseAllowedClientMetadataUrl client_id
      config.allowedClientMetadataHosts = some url)
    (hfetch : fetchDoc (hrefOf url) = some doc)
    (hmismatch : ∀ cu, parseUrl doc.client_id = some cu →
      hrefOf cu ≠ hrefOf url) :
    (resolveClientFromClientIdMetadataUrl fetchDoc isDev clients now
      client_id config requestedRedirectUri).1 = none := by
  unfold resolveClientFromClientIdMetadataUrl
  rw [hurl]
  dsimp only
  rw [hfetch]
  dsimp only
  cases hp : parseUrl doc.client_id with
  | none => rfl
  | some cu =>
    dsimp only
    rw [if_pos (hmismatch cu hp)]

theorem resolveClient_rejects_nonmatching_client_id_witness :
    (resolveClientFromClientIdMetadataUrl
      (fun u =>
        if u = "https://example.com/client.json" then
          some ⟨"https://other.example/md.json", "Demo App",
                ["https://app.example/cb"], some "none"⟩
        else none)
      false [] 0 "https://example.com/client.json"
      ⟨"https://as.example", "https://rs.example/mcp", "k", 600, 600, [],
       ["example.com"]⟩
      none).1 = none := by
  apply resolveClient_rejects_nonmatching_client_id _ _ _ _ _ _ _
    ⟨"https", "example.com", "/client.json", "", ""⟩
    ⟨"https://other.example/md.json", "Demo App",
     ["https://app.example/cb"], some "none"⟩
  · decide
  · decide
  · intro cu hcu
    rw [show parseUrl "https://other.example/md.json" =
          some ⟨"https", "other.example", "/md.json", "", ""⟩ from by decide]
      at hcu
    injection hcu with hcu'
    rw [← hcu']
    decide

/-! ## C8 -/

theorem dcr_register_uri_validation_counterexample :
    isValidRedirectUri "notauri" = false ∧
    registerClientDcr
      ⟨"https://as.example", "https://rs.example/mcp", "k", 600, 600,
       ["notauri"], []⟩
      ⟨none, none, some [some "notauri"]⟩ "c_1" =
      DcrResponse.created "c_1" "ChatGPT Connector" ["notauri"] "none" := by
  decide

/-- C8 (amended): the DCR endpoint responds 400 `invalid_client_metadata`
exactly when `redirect_uris` is absent (or not an array) or empty, or
`token_endpoint_auth_method` is present and not "none", or every entry trims
to the empty string, or some trimmed non-empty entry is outside the
configured allow-list — no per-URI syntactic validation is performed;
otherwise it creates a public client and responds 201 with the client object
(defaulted client_name, trimmed non-empty redirect_uris, auth method
"none"). -/
theorem dcr_register_characterization (config : AuthServerConfig)
    (body : DcrBody) (newClientId : String) :
    (registerClientDcr config body newClientId =
        DcrResponse.invalidClientMetadata ↔
      (body.redirect_uris = none ∨
       ∃ uris, body.redirect_uris = some uris ∧
         (uris = [] ∨ body.token_endpoint_auth_method.getD "none" ≠ "none" ∨
          dcrNormalize uris = [] ∨
          ∃ u ∈ dcrNormalize uris,
            config.allowedRedirectUris.contains u = false))) ∧
    (∀ uris, body.redirect_uris = some uris →
      uris ≠ [] →
      body.token_endpoint_auth_method.getD "none" = "none" →
      dcrNormalize uris ≠ [] →
      (∀ u ∈ dcrNormalize uris, config.allowedRedirectUris.contains u = true) →
      registerClientDcr config body newClientId =
        DcrResponse.created newClientId (body.client_name.getD "ChatGPT Connector")
          (dcrNormalize uris) "none") := by
  constructor
  · unfold registerClientDcr
    cases hu : body.redirect_uris with
    | none => exact iff_of_true rfl (Or.inl rfl)
    | some uris =>
      dsimp only
      by_cases h0 : uris.length = 0
      · rw [if_pos h0]
        exact iff_of_true rfl
          (Or.inr ⟨uris, rfl, Or.inl (List.length_eq_zero.mp h0)⟩)
      · rw [if_neg h0]
        by_cases hauth : body.token_endpoint_auth_method.getD "none" = "none"
        case neg =>
          rw [if_pos hauth]
          exact iff_of_true rfl (Or.inr ⟨uris, rfl, Or.inr (Or.inl hauth)⟩)
        case pos =>
          rw [if_neg (not_not_intro hauth)]
          by_cases hn : (dcrNormalize uris).length = 0
          · rw [if_pos hn]
            exact iff_of_true rfl
              (Or.inr ⟨uris, rfl, Or.inr (Or.inr (Or.inl
                (List.length_eq_zero.mp hn)))⟩)
          · rw [if_neg hn]
            by_cases hall : (dcrNormalize uris).all
                (fun uri => config.allowedRedirectUris.contains uri) = true
            case pos =>
              rw [if_neg (not_not_intro hall)]
              apply iff_of_false (fun h => DcrResponse.noConfusion h)
              rintro (h | ⟨uris2, huris2, hcase⟩)
              · exact Option.noConfusion h
              · injection huris2 with he
                subst he
                rcases hcase with h | h | h | ⟨u, hu1, hu2⟩
                · exact h0 (by rw [h]; rfl)
                · exact absurd hauth h
                · exact hn (by rw [h]; rfl)
                · rw [List.all_eq_true.mp hall u hu1] at hu2
                  exact Bool.noConfusion hu2
            case neg =>
              rw [if_pos hall]
              have hex : ∃ u ∈ dcrNormalize uris,
                  ¬ (config.allowedRedirectUris.contains u = true) := by
                simpa [List.all_eq_true] using hall
              obtain ⟨u, hu1, hu2⟩ := hex
              exact iff_of_true rfl
                (Or.inr ⟨uris, rfl, Or.inr (Or.inr (Or.inr
                  ⟨u, hu1, Bool.eq_false_iff.mpr hu2⟩))⟩)
  · intro uris hu hne hauth hnorm hall
    unfold registerClientDcr
    rw [hu]
    dsimp only
    rw [if_neg (fun h => hne (List.length_eq_zero.mp h)),
        if_neg (not_not_intro hauth),
        if_neg (fun h => hnorm (List.length_eq_zero.mp h)),
        if_neg (not_not_intro (List.all_eq_true.mpr hall))]

theorem dcr_register_characterization_witness :
    registerClientDcr
      ⟨"https://as.example", "https://rs.example/mcp", "k", 600, 600,
       ["https://client.example/cb",
        "https://chatgpt.com/connector_platform_oauth_redirect"], []⟩
      ⟨some "My App", some "none", some [some " https://client.example/cb "]⟩
      "c_2" =
      DcrResponse.created "c_2" "My App" ["https://client.example/cb"] "none" :=
  (dcr_register_characterization
    ⟨"https://as.example", "https://rs.example/mcp", "k", 600, 600,
     ["https://client.example/cb",
      "https://chatgpt.com/connector_platform_oauth_redirect"], []⟩
    ⟨some "My App", some "none", some [some " https://client.example/cb "]⟩
    "c_2").2
    [some " https://client.example/cb "] rfl (by decide) rfl (by decide)
    (by decide)
